import Mathlib

/-!
A shallow embedding of the workspace state store of the `reflect` telemetry
dashboard (files `src/specs/v1.ts`, `src/stores/Workspace.ts`,
`src/widgets/WidgetRegistry.tsx` and the widget descriptor modules), together
with proofs about its persistence round trip, document validation, widget-type
handling, the bound-slot cache and the dashboard list operations.

Modelling conventions:
  * JavaScript values carried opaquely (zod `unknown`, widget `props`) are a
    `Json` tree; JS numbers are `Rat` (the code never performs float
    arithmetic on them, it only stores, compares to zero and re-serializes).
  * JS objects are insertion-ordered field lists; deep value equality of JS
    objects (order-insensitive on fields) is `Json.jsEq`.
  * `undefined` / missing optional values are `Option.none`.
  * JS `Record<string, T>` is an insertion-ordered association list with
    unique keys (`recordSet` updates in place or appends, as object literal
    spreads do).
  * zustand/immer mutation actions become pure functions on the store state;
    `safeParse` validation is `Except` (zod never throws); the nondeterminism
    of `uuidv4()` is a fresh-identifier argument of the action.
-/

mutual

inductive Json where
  | null : Json
  | bool (b : Bool) : Json
  | num (n : Rat) : Json
  | str (s : String) : Json
  | arr (elems : JsonItems) : Json
  | obj (fields : JsonFields) : Json
  deriving DecidableEq

inductive JsonItems where
  | nil : JsonItems
  | cons (head : Json) (tail : JsonItems) : JsonItems
  deriving DecidableEq

inductive JsonFields where
  | nil : JsonFields
  | cons (key : String) (value : Json) (tail : JsonFields) : JsonFields
  deriving DecidableEq

end

/-- First-match field lookup, the JS property read on objects (JS objects
cannot carry duplicate keys, so first-match agrees with property access). -/
def JsonFields.lookup : JsonFields → String → Option Json
  | .nil, _ => none
  | .cons k v tl, key => if k = key then some v else tl.lookup key

/-- Keys of an object, in order. -/
def JsonFields.keys : JsonFields → List String
  | .nil => []
  | .cons k _ tl => k :: tl.keys

mutual

/-- Deep JS value equality: structural on primitives and arrays,
field-order-insensitive on objects (lodash-style `isEqual`). -/
def Json.jsEq : Json → Json → Bool
  | .null, .null => true
  | .bool a, .bool b => a = b
  | .num a, .num b => a = b
  | .str a, .str b => a = b
  | .arr xs, .arr ys => JsonItems.jsEqItems xs ys
  | .obj xs, .obj ys =>
      xs.keys.all (fun k => ys.keys.contains k) &&
      ys.keys.all (fun k => xs.keys.contains k) &&
      JsonFields.jsEqInto xs ys
  | _, _ => false
termination_by structural a _ => a

/-- Pointwise deep equality of array elements. -/
def JsonItems.jsEqItems : JsonItems → JsonItems → Bool
  | .nil, .nil => true
  | .cons x xs, .cons y ys => x.jsEq y && JsonItems.jsEqItems xs ys
  | _, _ => false
termination_by structural a _ => a

/-- Each field of the first object deeply equals the corresponding field of
the second. -/
def JsonFields.jsEqInto : JsonFields → JsonFields → Bool
  | .nil, _ => true
  | .cons k v tl, other =>
      (match other.lookup k with
       | some w => v.jsEq w
       | none => false) &&
      tl.jsEqInto other
termination_by structural a _ => a

end

/-- Deep JS equality on possibly-undefined values, checked in both
orientations (`jsEq` is orientation-sensitive only on duplicate-keyed
objects, which JS itself cannot produce). -/
def jsOptEq (a b : Option Json) : Bool :=
  match a, b with
  | none, none => true
  | some x, some y => x.jsEq y && y.jsEq x
  | _, _ => false

/-! ## Document schema (`src/specs/v1.ts`) -/

/-- `export const VERSION = 1`. -/
def VERSION : Rat := 1

/-- `WidgetTypeValues` — the widget type tags admitted by the document
schema (`z.enum(WidgetTypeValues)`). -/
def WidgetTypeValues : List String :=
  ["toggle", "chooser", "slider", "gyro", "power.pdp", "power.pdh",
   "field2d", "robot3d", "chart.line", "color", "value", "camera",
   "2025.reef.coral", "2025.reef.algae"]

structure WidgetLayout where
  left : Rat
  top : Rat
  width : Rat
  height : Rat
  deriving DecidableEq

structure WidgetBounds where
  min : Option Rat
  max : Option Rat
  fixed : Option Bool
  deriving DecidableEq

structure WidgetLayoutConstraints where
  width : Option WidgetBounds
  height : Option WidgetBounds
  deriving DecidableEq

structure WidgetRecord where
  id : String
  type : String
  layout : WidgetLayout
  constraints : Option WidgetLayoutConstraints
  slot : Option String
  lookback : Option Rat
  props : Option Json
  deriving DecidableEq

structure Viewport where
  x : Rat
  y : Rat
  scale : Rat
  deriving DecidableEq

structure DashboardRecord where
  id : String
  widgets : List WidgetRecord
  viewport : Option Viewport
  deriving DecidableEq

structure WorkspaceDashboardsDoc where
  auto : Option DashboardRecord
  teleop : Option DashboardRecord
  custom : Option (List DashboardRecord)
  deriving DecidableEq

structure WorkspaceDocument where
  version : Rat
  dashboardId : Option String
  dashboards : Option WorkspaceDashboardsDoc
  deriving DecidableEq

/-! ### zod validation (`WorkspaceDocumentSchema.safeParse`)

The decoder mirrors the zod schemas of `v1.ts` field by field.  zod collects
every issue; the model stops at the first one — the claims depend only on
success versus failure and on the error being a structured value. -/

structure ZodIssue where
  path : List String
  message : String
  deriving DecidableEq

def decodeNumber : Json → Except ZodIssue Rat
  | .num n => .ok n
  | _ => .error ⟨[], "Expected number"⟩

def decodeStringValue : Json → Except ZodIssue String
  | .str s => .ok s
  | _ => .error ⟨[], "Expected string"⟩

def decodeBoolValue : Json → Except ZodIssue Bool
  | .bool b => .ok b
  | _ => .error ⟨[], "Expected boolean"⟩

def decodeNonnegative (j : Json) : Except ZodIssue Rat := do
  let n ← decodeNumber j
  if 0 ≤ n then .ok n else .error ⟨[], "Number must be greater than or equal to 0"⟩

def decodePositive (j : Json) : Except ZodIssue Rat := do
  let n ← decodeNumber j
  if 0 < n then .ok n else .error ⟨[], "Number must be greater than 0"⟩

def asObject : Json → Except ZodIssue JsonFields
  | .obj f => .ok f
  | _ => .error ⟨[], "Expected object"⟩

def requiredField (f : JsonFields) (k : String) : Except ZodIssue Json :=
  match f.lookup k with
  | some v => .ok v
  | none => .error ⟨[k], "Required"⟩

def optionalField {α : Type} (f : JsonFields) (k : String)
    (dec : Json → Except ZodIssue α) : Except ZodIssue (Option α) :=
  match f.lookup k with
  | none => .ok none
  | some v => (dec v).map some

def decodeItems {α : Type} (dec : Json → Except ZodIssue α) :
    JsonItems → Except ZodIssue (List α)
  | .nil => .ok []
  | .cons h t => do
      let x ← dec h
      let xs ← decodeItems dec t
      .ok (x :: xs)

def decodeArray {α : Type} (dec : Json → Except ZodIssue α) :
    Json → Except ZodIssue (List α)
  | .arr items => decodeItems dec items
  | _ => .error ⟨[], "Expected array"⟩

def decodeWidgetType (j : Json) : Except ZodIssue String := do
  let s ← decodeStringValue j
  if WidgetTypeValues.contains s then .ok s
  else .error ⟨[], "Invalid enum value"⟩

def decodeWidgetLayout (j : Json) : Except ZodIssue WidgetLayout := do
  let f ← asObject j
  let left ← decodeNumber (← requiredField f "left")
  let top ← decodeNumber (← requiredField f "top")
  let width ← decodeNumber (← requiredField f "width")
  let height ← decodeNumber (← requiredField f "height")
  .ok { left := left, top := top, width := width, height := height }

def decodeWidgetBounds (j : Json) : Except ZodIssue WidgetBounds := do
  let f ← asObject j
  let mn ← optionalField f "min" decodeNonnegative
  let mx ← optionalField f "max" decodePositive
  let fx ← optionalField f "fixed" decodeBoolValue
  .ok { min := mn, max := mx, fixed := fx }

def decodeWidgetLayoutConstraints (j : Json) :
    Except ZodIssue WidgetLayoutConstraints := do
  let f ← asObject j
  let w ← optionalField f "width" decodeWidgetBounds
  let h ← optionalField f "height" decodeWidgetBounds
  .ok { width := w, height := h }

def decodeWidgetRecord (j : Json) : Except ZodIssue WidgetRecord := do
  let f ← asObject j
  let id ← decodeStringValue (← requiredField f "id")
  let type ← decodeWidgetType (← requiredField f "type")
  let layout ← decodeWidgetLayout (← requiredField f "layout")
  let constraints ← optionalField f "constraints" decodeWidgetLayoutConstraints
  let slot ← optionalField f "slot" decodeStringValue
  let lookback ← optionalField f "lookback" decodeNonnegative
  -- `props: z.unknown().optional()` admits any value unchanged
  .ok { id := id, type := type, layout := layout, constraints := constraints,
        slot := slot, lookback := lookback, props := f.lookup "props" }

def decodeViewport (j : Json) : Except ZodIssue Viewport := do
  let f ← asObject j
  let x ← decodeNumber (← requiredField f "x")
  let y ← decodeNumber (← requiredField f "y")
  let scale ← decodePositive (← requiredField f "scale")
  .ok { x := x, y := y, scale := scale }

def decodeDashboardRecord (j : Json) : Except ZodIssue DashboardRecord := do
  let f ← asObject j
  let id ← decodeStringValue (← requiredField f "id")
  let widgets ← decodeArray decodeWidgetRecord (← requiredField f "widgets")
  let viewport ← optionalField f "viewport" decodeViewport
  .ok { id := id, widgets := widgets, viewport := viewport }

def decodeWorkspaceDashboards (j : Json) :
    Except ZodIssue WorkspaceDashboardsDoc := do
  let f ← asObject j
  let auto ← optionalField f "auto" decodeDashboardRecord
  let teleop ← optionalField f "teleop" decodeDashboardRecord
  let custom ← optionalField f "custom" (decodeArray decodeDashboardRecord)
  .ok { auto := auto, teleop := teleop, custom := custom }

/-- `WorkspaceDocumentSchema.safeParse`: `version` is `z.literal(VERSION)`,
checked on the document's `version` field before the rest of the shape. -/
def decodeWorkspaceDocument (j : Json) : Except ZodIssue WorkspaceDocument :=
  match j with
  | .obj f =>
    match f.lookup "version" with
    | some (.num n) =>
      if n = VERSION then
        match optionalField f "dashboardId" decodeStringValue with
        | .error e => .error e
        | .ok dashboardId =>
          match optionalField f "dashboards" decodeWorkspaceDashboards with
          | .error e => .error e
          | .ok dashboards =>
            .ok { version := n, dashboardId := dashboardId, dashboards := dashboards }
      else .error ⟨["version"], "Invalid literal value, expected 1"⟩
    | some _ => .error ⟨["version"], "Invalid literal value, expected 1"⟩
    | none => .error ⟨["version"], "Required"⟩
  | _ => .error ⟨[], "Expected object"⟩

/-! ## Widget descriptors and the registry

Only the descriptor fields the store reads are embedded: `type`,
`constraints`, `slot.lookback`, `slot.defaultChannel`, `props.schema`,
`props.defaultValue`.  A props schema is the zod `safeParse` of the
descriptor: `some parsedData` on success, `none` on failure. -/

structure WidgetSlotSpec where
  lookback : Option Rat
  defaultChannel : Option String

structure WidgetPropsSpec where
  schema : Option Json → Option Json
  defaultValue : Json

structure WidgetDescriptor where
  type : String
  constraints : Option WidgetLayoutConstraints
  slot : Option WidgetSlotSpec
  props : Option WidgetPropsSpec

/-- Schema outcome of one zod object field: `none` is a validation failure,
`some none` an absent optional field, `some (some v)` a parsed value. -/
def zodOptionalStringField (f : JsonFields) (k : String) : Option (Option Json) :=
  match f.lookup k with
  | none => some none
  | some (.str s) => some (some (.str s))
  | some _ => none

def zodOptionalBoolField (f : JsonFields) (k : String) : Option (Option Json) :=
  match f.lookup k with
  | none => some none
  | some (.bool b) => some (some (.bool b))
  | some _ => none

/-- `z.number().default(d)` on an object field. -/
def zodNumberFieldDefault (f : JsonFields) (k : String) (d : Rat) : Option Json :=
  match f.lookup k with
  | none => some (.num d)
  | some (.num n) => some (.num n)
  | some _ => none

/-- `z.boolean().default(d)` on an object field. -/
def zodBoolFieldDefault (f : JsonFields) (k : String) (d : Bool) : Option Json :=
  match f.lookup k with
  | none => some (.bool d)
  | some (.bool b) => some (.bool b)
  | some _ => none

/-- `z.string().default(d)` on an object field. -/
def zodStringFieldDefault (f : JsonFields) (k : String) (d : String) : Option Json :=
  match f.lookup k with
  | none => some (.str d)
  | some (.str s) => some (.str s)
  | some _ => none

/-- Append an optional parsed field to a zod output object. -/
def fieldsAppendOpt (k : String) (v : Option Json) (rest : JsonFields) : JsonFields :=
  match v with
  | none => rest
  | some j => .cons k j rest

/-- `numericFormat` schema of `WidgetSlider.tsx`:
`z.object({ maximumFractionDigits: z.number().nonnegative().optional() })`. -/
def numericFormatSchema (j : Json) : Option Json :=
  match j with
  | .obj f =>
    match f.lookup "maximumFractionDigits" with
    | none => some (.obj .nil)
    | some (.num n) =>
        if 0 ≤ n then some (.obj (.cons "maximumFractionDigits" (.num n) .nil))
        else none
    | some _ => none
  | _ => none

/-- Props schema of `WidgetSlider.tsx`: optional `title`/`interactive`/
`valueFormat`, and `min`/`max`/`step` with zod defaults `-1`/`1`/`0.1`. -/
def sliderPropsSchema (v : Option Json) : Option Json :=
  match v with
  | some (.obj f) => do
    let title ← zodOptionalStringField f "title"
    let interactive ← zodOptionalBoolField f "interactive"
    let valueFormat ←
      match f.lookup "valueFormat" with
      | none => some none
      | some j => (numericFormatSchema j).map some
    let mn ← zodNumberFieldDefault f "min" (-1)
    let mx ← zodNumberFieldDefault f "max" 1
    let step ← zodNumberFieldDefault f "step" (mkRat 1 10)
    some (.obj (fieldsAppendOpt "title" title
      (fieldsAppendOpt "interactive" interactive
        (fieldsAppendOpt "valueFormat" valueFormat
          (.cons "min" mn (.cons "max" mx (.cons "step" step .nil)))))))
  | _ => none

/-- `WidgetSliderDescriptor.props.defaultValue` from `WidgetSlider.tsx`. -/
def sliderDefaultProps : Json :=
  .obj (.cons "interactive" (.bool false)
    (.cons "min" (.num (-1))
      (.cons "max" (.num 1)
        (.cons "step" (.num (mkRat 1 10))
          (.cons "valueFormat"
            (.obj (.cons "maximumFractionDigits" (.num 2) .nil)) .nil)))))

/-- `WidgetSliderDescriptor` (`WidgetSlider.tsx`), store-relevant fields. -/
def WidgetSliderDescriptor : WidgetDescriptor :=
  { type := "slider"
    constraints := some
      { width := some { min := some 6, max := none, fixed := none }
        height := some { min := some 4, max := none, fixed := none } }
    slot := some { lookback := none, defaultChannel := none }
    props := some { schema := sliderPropsSchema, defaultValue := sliderDefaultProps } }

def TRUE_COLOR : String := "#00c951"

def FALSE_COLOR : String := "#fb2c36"

/-- Nested `boolean` schema of `WidgetColor.tsx`:
`z.object({ true: z.string().default(TRUE_COLOR), false: z.string().default(FALSE_COLOR) })`. -/
def colorBooleanSchema (j : Json) : Option Json :=
  match j with
  | .obj f => do
    let t ← zodStringFieldDefault f "true" TRUE_COLOR
    let fa ← zodStringFieldDefault f "false" FALSE_COLOR
    some (.obj (.cons "true" t (.cons "false" fa .nil)))
  | _ => none

/-- Props schema of `WidgetColor.tsx`: optional `title`, required `boolean`. -/
def colorPropsSchema (v : Option Json) : Option Json :=
  match v with
  | some (.obj f) => do
    let title ← zodOptionalStringField f "title"
    let boolean ←
      match f.lookup "boolean" with
      | none => none
      | some j => (colorBooleanSchema j).map some
    some (.obj (fieldsAppendOpt "title" title (fieldsAppendOpt "boolean" boolean .nil)))
  | _ => none

/-- `WidgetColorDescriptor.props.defaultValue` from `WidgetColor.tsx`. -/
def colorDefaultProps : Json :=
  .obj (.cons "boolean"
    (.obj (.cons "true" (.str TRUE_COLOR) (.cons "false" (.str FALSE_COLOR) .nil))) .nil)

/-- `WidgetColorDescriptor` (`WidgetColor.tsx`), store-relevant fields. -/
def WidgetColorDescriptor : WidgetDescriptor :=
  { type := "color"
    constraints := some
      { width := some { min := some 4, max := none, fixed := none }
        height := some { min := some 4, max := none, fixed := none } }
    slot := some { lookback := none, defaultChannel := none }
    props := some { schema := colorPropsSchema, defaultValue := colorDefaultProps } }

/-- Props schema of `WidgetMatchTime.tsx`: optional `title`, `gameDataVisible`
defaulting to `true`, `attention`/`cautionAt`/`dangerAt` defaulting to
`5`/`30`/`10`. -/
def matchTimePropsSchema (v : Option Json) : Option Json :=
  match v with
  | some (.obj f) => do
    let title ← zodOptionalStringField f "title"
    let gdv ← zodBoolFieldDefault f "gameDataVisible" true
    let attention ← zodNumberFieldDefault f "attention" 5
    let cautionAt ← zodNumberFieldDefault f "cautionAt" 30
    let dangerAt ← zodNumberFieldDefault f "dangerAt" 10
    some (.obj (fieldsAppendOpt "title" title
      (.cons "gameDataVisible" gdv
        (.cons "attention" attention
          (.cons "cautionAt" cautionAt (.cons "dangerAt" dangerAt .nil))))))
  | _ => none

/-- `WidgetMatchTimeDescriptor.props.defaultValue` from `WidgetMatchTime.tsx`
(the schema defaults). -/
def matchTimeDefaultProps : Json :=
  .obj (.cons "gameDataVisible" (.bool true)
    (.cons "attention" (.num 5)
      (.cons "cautionAt" (.num 30) (.cons "dangerAt" (.num 10) .nil))))

/-- `WidgetMatchTimeDescriptor` (`WidgetMatchTime.tsx`), store-relevant fields. -/
def WidgetMatchTimeDescriptor : WidgetDescriptor :=
  { type := "match.time"
    constraints := some
      { width := some { min := some 9, max := none, fixed := none }
        height := some { min := some 6, max := none, fixed := none } }
    slot := some { lookback := none, defaultChannel := none }
    props := some { schema := matchTimePropsSchema, defaultValue := matchTimeDefaultProps } }

/-- Props schema of the FMS widget module: `z.object({})`, which accepts any
object and strips every key. -/
def fmsPropsSchema (v : Option Json) : Option Json :=
  match v with
  | some (.obj _) => some (.obj .nil)
  | _ => none

/-- The FMS widget descriptor (declared `WidgetFMS` in its module, imported
by the registry as `WidgetFMSDescriptor`), store-relevant fields: constraints
`{width:{min:9}, height:{min:7}}`, `slot.defaultChannel "nt:/FMSInfo/*"` (no
lookback), props schema `z.object({})` with default value `{}`. -/
def WidgetFMSDescriptor : WidgetDescriptor :=
  { type := "fms"
    constraints := some
      { width := some { min := some 9, max := none, fixed := none }
        height := some { min := some 7, max := none, fixed := none } }
    slot := some { lookback := none, defaultChannel := some "nt:/FMSInfo/*" }
    props := some { schema := fmsPropsSchema, defaultValue := .obj .nil } }

/-- Modelled from the spec: the widget descriptor bundles whose source modules
(`WidgetValue`, `WidgetToggle`, `WidgetChooser`, `WidgetField2d`,
`WidgetAlerts`, `WidgetChartLine`, `WidgetPowerDistribution`, `WidgetGyro`,
`WidgetSwerve`, `WidgetCamera`, `WidgetReefCoral`, `WidgetReefAlgae`) are part
of the repository but missing here.  The spec describes a descriptor as a
type-tagged bundle of schema/default/metadata; the store only dispatches on
the type tag for these, and no theorem below evaluates their schemas or
defaults. -/
def placeholderDescriptor (t : String) : WidgetDescriptor :=
  { type := t, constraints := none, slot := none, props := none }

/-- `WidgetRegistry` (`WidgetRegistry.tsx`): the type-tag-keyed map of the
descriptors listed there.  `WidgetRobot3dDescriptor` is commented out in the
source, so `robot3d` has no entry although the document schema admits it. -/
def WidgetRegistry : String → Option WidgetDescriptor := fun t =>
  if t = "slider" then some WidgetSliderDescriptor
  else if t = "color" then some WidgetColorDescriptor
  else if t = "match.time" then some WidgetMatchTimeDescriptor
  else if t = "fms" then some WidgetFMSDescriptor
  else if t ∈ ["value", "toggle", "chooser", "field2d", "alerts",
               "chart.line", "power.pdh", "power.pdp", "gyro", "swerve",
               "camera", "2025.reef.coral", "2025.reef.algae"] then
    some (placeholderDescriptor t)
  else none

/-! ## Runtime state (`src/stores/Workspace.ts`) -/

inductive DashboardType where
  | auto
  | teleop
  | custom
  deriving DecidableEq

structure RuntimeWidget where
  id : String
  type : String
  layout : WidgetLayout
  constraints : Option WidgetLayoutConstraints
  slot : Option String
  lookback : Option Rat
  props : Option Json
  descriptor : WidgetDescriptor

structure RuntimeDashboard where
  id : String
  name : String
  type : DashboardType
  widgets : List (String × RuntimeWidget)
  viewport : Option Viewport

structure WorkspaceDashboards where
  auto : RuntimeDashboard
  teleop : RuntimeDashboard
  custom : List RuntimeDashboard

structure WorkspaceStore where
  hasHydrated : Bool
  dashboardId : Option String
  designMode : Bool
  dashboards : WorkspaceDashboards
  slots : Option (List String)

/-- JS `record[k] = v`: replace in place when the key exists (runtime widget
maps never carry duplicate keys), append otherwise. -/
def recordSet {α : Type} (m : List (String × α)) (k : String) (v : α) :
    List (String × α) :=
  match m with
  | [] => [(k, v)]
  | p :: rest => if p.1 = k then (k, v) :: rest else p :: recordSet rest k v

/-- JS `record[k]` read (first match; runtime maps are unique-keyed). -/
def recordGet {α : Type} : List (String × α) → String → Option α
  | [], _ => none
  | p :: rest, k => if p.1 = k then some p.2 else recordGet rest k

/-- JS `delete record[k]`. -/
def recordDelete {α : Type} (m : List (String × α)) (k : String) :
    List (String × α) :=
  m.filter (fun p => ¬ p.1 = k)

/-- `defaultState` of `Workspace.ts`. -/
def defaultState : WorkspaceStore :=
  { hasHydrated := false
    dashboardId := none
    designMode := false
    dashboards :=
      { auto := { id := "auto", name := "Auto", type := .auto, widgets := [], viewport := none }
        teleop := { id := "teleop", name := "Teleop", type := .teleop, widgets := [], viewport := none }
        custom := [] }
    slots := none }

/-- `dashboardName`: the positional display name `Dashboard ${index + 1}`
(the index is an `Int` because `parseDashboard` evaluates `index ?? -1`). -/
def dashboardName (index : Int) : String :=
  "Dashboard " ++ toString (index + 1)

/-- JS `Set.add` (insertion-ordered, idempotent). -/
def slotAdd (set : List String) (s : String) : List String :=
  if set.contains s then set else set ++ [s]

/-- `getSlots`: every truthy `slot` of every widget across the auto, teleop
and custom dashboards, deduplicated in first-seen order (`Array.from` of the
insertion-ordered JS `Set`; the empty string is falsy and skipped). -/
def getSlots (dashboards : WorkspaceDashboards) : List String :=
  (dashboards.auto :: dashboards.teleop :: dashboards.custom).foldl
    (fun set dashboard =>
      dashboard.widgets.foldl
        (fun set p =>
          match p.2.slot with
          | some s => if s = "" then set else slotAdd set s
          | none => set)
        set)
    []

/-- `parseWidgetProps`: validate against the descriptor schema, fall back to
the descriptor default, or produce `{}` for a descriptor without props. -/
def parseWidgetProps (unknownValue : Option Json) (descriptor : WidgetDescriptor) : Json :=
  match descriptor.props with
  | some ps => (ps.schema unknownValue).getD ps.defaultValue
  | none => .obj .nil

/-- The per-widget projection inside `persistDashboard`. -/
def persistWidget (p : String × RuntimeWidget) : WidgetRecord :=
  { id := p.2.id, type := p.2.type, layout := p.2.layout,
    constraints := p.2.constraints, slot := p.2.slot,
    lookback := p.2.lookback, props := p.2.props }

/-- `persistDashboard`: strip names/types/descriptors, widgets back to the
ordered list (`Object.values` insertion order). -/
def persistDashboard (dashboard : RuntimeDashboard) : DashboardRecord :=
  { id := dashboard.id
    viewport := dashboard.viewport
    widgets := dashboard.widgets.map persistWidget }

/-- The reducer inside `parseDashboard`'s widget rebuild: drop the record
when its type has no registry descriptor, otherwise enrich it and key it by
its id. -/
def parseWidgetStep (acc : List (String × RuntimeWidget)) (widget : WidgetRecord) :
    List (String × RuntimeWidget) :=
  match WidgetRegistry widget.type with
  | none => acc
  | some descriptor =>
    recordSet acc widget.id
      { id := widget.id, type := widget.type, layout := widget.layout,
        constraints := widget.constraints, slot := widget.slot,
        lookback := widget.lookback,
        props := some (parseWidgetProps widget.props descriptor),
        descriptor := descriptor }

/-- `parseDashboard`: rebuild a runtime dashboard from a persisted record;
widgets whose type has no registry descriptor are dropped, props are
re-validated through `parseWidgetProps`. -/
def parseDashboard (dashboard : Option DashboardRecord) (type : DashboardType)
    (index : Option Int) : RuntimeDashboard :=
  match dashboard with
  | some d =>
    { id := match type with | .auto => "auto" | .teleop => "teleop" | .custom => d.id
      name := match type with
        | .auto => "Auto"
        | .teleop => "Teleop"
        | .custom => dashboardName (index.getD (-1))
      type := type
      viewport := d.viewport
      widgets := d.widgets.foldl parseWidgetStep [] }
  | none =>
    { id := match type with | .auto => "auto" | .teleop => "teleop" | .custom => ""
      name := match type with | .auto => "Auto" | .teleop => "Teleop" | .custom => "Dashboard"
      type := type
      viewport := none
      widgets := [] }

/-- `persistState`: the runtime state as a persistable document. -/
def persistState (state : WorkspaceStore) : WorkspaceDocument :=
  { version := VERSION
    dashboardId := state.dashboardId
    dashboards := some
      { auto := some (persistDashboard state.dashboards.auto)
        teleop := some (persistDashboard state.dashboards.teleop)
        custom := some (state.dashboards.custom.map persistDashboard) } }

/-- `record?.dashboards?.custom?.map((_, index) => parseDashboard(_, "custom", index))`. -/
def parseCustomFrom (i : Int) : List DashboardRecord → List RuntimeDashboard
  | [] => []
  | d :: rest => parseDashboard (some d) .custom (some i) :: parseCustomFrom (i + 1) rest

/-- `mergeState`: replace the dashboards from the persisted document,
defaulting the selection to `teleop`, and recompute the slot cache unless in
design mode. -/
def mergeState (persistedState : Option WorkspaceDocument) (state : WorkspaceStore) :
    WorkspaceStore :=
  let record := persistedState
  let dashboards : WorkspaceDashboards :=
    { auto := parseDashboard ((record.bind (fun r => r.dashboards)).bind (fun d => d.auto)) .auto none
      teleop := parseDashboard ((record.bind (fun r => r.dashboards)).bind (fun d => d.teleop)) .teleop none
      custom := parseCustomFrom 0 (((record.bind (fun r => r.dashboards)).bind (fun d => d.custom)).getD []) }
  { state with
    dashboardId := some ((record.bind (fun r => r.dashboardId)).getD "teleop")
    dashboards := dashboards
    slots := if state.designMode then none else some (getSlots dashboards) }

/-! ## Dashboard resolution and the mutation actions -/

/-- `Array.prototype.findIndex` as an optional index (recursive form of
`List.findIdx?`). -/
def findIndexOpt {α : Type} (p : α → Bool) : List α → Option Nat
  | [] => none
  | x :: rest => if p x then some 0 else (findIndexOpt p rest).map (· + 1)

/-- Address of a dashboard inside the store, used to render immer's in-place
draft mutation as a functional update. -/
inductive DashboardAddr where
  | auto
  | teleop
  | custom (i : Nat)
  deriving DecidableEq

/-- The resolution chain of `getDashboard`: `id ?? state.dashboardId`
matched against `auto.id`, then `teleop.id`, then a linear scan of `custom`. -/
def resolveDashboard (state : WorkspaceStore) (id : Option String) :
    Option DashboardAddr :=
  let dashboardId : Option String :=
    match id with
    | some v => some v
    | none => state.dashboardId
  if some state.dashboards.auto.id = dashboardId then some .auto
  else if some state.dashboards.teleop.id = dashboardId then some .teleop
  else (findIndexOpt (fun d => some d.id = dashboardId) state.dashboards.custom).map .custom

def dashboardAt (state : WorkspaceStore) : DashboardAddr → Option RuntimeDashboard
  | .auto => some state.dashboards.auto
  | .teleop => some state.dashboards.teleop
  | .custom i => state.dashboards.custom.get? i

/-- `getDashboard` of `Workspace.ts`. -/
def getDashboard (state : WorkspaceStore) (id : Option String) :
    Option RuntimeDashboard :=
  (resolveDashboard state id).bind (dashboardAt state)

/-- Apply a draft mutation to the dashboard at an address. -/
def applyAtAddr (state : WorkspaceStore) (addr : DashboardAddr)
    (f : RuntimeDashboard → RuntimeDashboard) : WorkspaceStore :=
  match addr with
  | .auto => { state with dashboards := { state.dashboards with auto := f state.dashboards.auto } }
  | .teleop => { state with dashboards := { state.dashboards with teleop := f state.dashboards.teleop } }
  | .custom i =>
    match state.dashboards.custom.get? i with
    | some d => { state with dashboards := { state.dashboards with custom := state.dashboards.custom.set i (f d) } }
    | none => state

/-- Mutation through `getDashboard` on the draft: a no-op when the dashboard
does not resolve. -/
def updateDashboard (state : WorkspaceStore) (id : Option String)
    (f : RuntimeDashboard → RuntimeDashboard) : WorkspaceStore :=
  match resolveDashboard state id with
  | some addr => applyAtAddr state addr f
  | none => state

/-- Mutation of one widget through the draft: a no-op when the dashboard or
the widget does not resolve. -/
def updateWidgetIn (state : WorkspaceStore) (dashboardId : Option String)
    (widgetId : String) (f : RuntimeWidget → RuntimeWidget) : WorkspaceStore :=
  updateDashboard state dashboardId (fun dashboard =>
    match recordGet dashboard.widgets widgetId with
    | some w => { dashboard with widgets := recordSet dashboard.widgets widgetId (f w) }
    | none => dashboard)

/-- The `import` action: `safeParse` then `mergeState` on success, or the
structured error with the state untouched. -/
def workspaceImport (state : WorkspaceStore) (document : Json) :
    WorkspaceStore × Option ZodIssue :=
  match decodeWorkspaceDocument document with
  | .ok result => (mergeState (some result) state, none)
  | .error e => (state, some e)

/-- `addDashboard` (`freshId` stands for `uuidv4()`). -/
def addDashboard (state : WorkspaceStore) (freshId : String) : WorkspaceStore :=
  { state with
    dashboards := { state.dashboards with
      custom := state.dashboards.custom ++
        [{ id := freshId
           name := dashboardName (state.dashboards.custom.length : Int)
           type := .custom
           widgets := []
           viewport := none }] }
    dashboardId := some freshId }

/-- `Array.prototype.findIndex`: index or `-1`. -/
def findIndexById (l : List RuntimeDashboard) (id : String) : Int :=
  match findIndexOpt (fun d => d.id = id) l with
  | some i => (i : Int)
  | none => -1

/-- `arrayMove` of the `@dnd-kit/sortable` dependency:
`newArray.splice(to < 0 ? newArray.length + to : to, 0, newArray.splice(from, 1)[0])`
with full JS `splice` semantics — negative indices count from the end and are
clamped, a removal from an out-of-range index contributes `undefined`
(`none`). -/
def arrayMove {α : Type} (array : List α) (fromIdx toIdx : Int) : List (Option α) :=
  let n : Int := (array.length : Int)
  -- the outer splice's index argument `to < 0 ? newArray.length + to : to` is
  -- evaluated before the inner removal splice mutates the array, so a negative
  -- target counts from the PRE-removal length; the resulting index is then
  -- clamped by splice against the post-removal array
  let insPos : Int := if toIdx < 0 then n + toIdx else toIdx
  let fromStart : Nat :=
    if fromIdx < 0 then (n + fromIdx).toNat else min fromIdx.toNat array.length
  let removed : Option α := array.get? fromStart
  let rest : List α := array.eraseIdx fromStart
  let m : Int := (rest.length : Int)
  let insStart : Nat :=
    if insPos < 0 then (m + insPos).toNat else min insPos.toNat rest.length
  (rest.map some).insertIdx insStart removed

/-- The renaming loop `custom[i]!.name = dashboardName(i)` starting at `i`. -/
def renumberFrom (i : Int) : List RuntimeDashboard → List RuntimeDashboard
  | [] => []
  | d :: rest => { d with name := dashboardName i } :: renumberFrom (i + 1) rest

/-- `moveDashboard`: `arrayMove` on the two `findIndex` results (unguarded in
the source), then the renaming loop over the whole list.  The loop reads
`custom[i]!.name` and throws a `TypeError` when `arrayMove` produced an
`undefined` entry; a thrown producer leaves the zustand state unchanged and
propagates, modelled as `none`. -/
def moveDashboard (state : WorkspaceStore) (id targetId : String) :
    Option WorkspaceStore :=
  let oldIndex := findIndexById state.dashboards.custom id
  let newIndex := findIndexById state.dashboards.custom targetId
  let moved := arrayMove state.dashboards.custom oldIndex newIndex
  if moved.all Option.isSome then
    some { state with dashboards := { state.dashboards with
      custom := renumberFrom 0 (moved.filterMap (fun x => x)) } }
  else
    none

/-- `removeDashboard`: splice the matching entry out and renumber the names
from its index; the trailing `draft.dashboardId = "teleop"` runs whether or
not the id was found. -/
def removeDashboard (state : WorkspaceStore) (id : String) : WorkspaceStore :=
  let base :=
    match findIndexOpt (fun d => d.id = id) state.dashboards.custom with
    | some index =>
      let removed := state.dashboards.custom.eraseIdx index
      { state with dashboards := { state.dashboards with
          custom := removed.take index ++ renumberFrom (index : Int) (removed.drop index) } }
    | none => state
  { base with dashboardId := some "teleop" }

/-- `selectDashboard`: sets the selection when the id resolves. -/
def selectDashboard (state : WorkspaceStore) (id : String) : WorkspaceStore :=
  match getDashboard state (some id) with
  | some dashboard => { state with dashboardId := some dashboard.id }
  | none => state

/-- `selectDashboardByKey`: select the custom dashboard at a hotkey index. -/
def selectDashboardByKey (state : WorkspaceStore) (index : Int) : WorkspaceStore :=
  if 0 ≤ index ∧ index < (state.dashboards.custom.length : Int) then
    match state.dashboards.custom.get? index.toNat with
    | some d => { state with dashboardId := some d.id }
    | none => state
  else state

/-- `getWidget` (a read-only selector). -/
def getWidget (state : WorkspaceStore) (widgetId : String) (dashboardId : Option String) :
    Option RuntimeWidget :=
  (getDashboard state dashboardId).bind (fun d => recordGet d.widgets widgetId)

/-- `enterDesignMode`: only sets the flag. -/
def enterDesignMode (state : WorkspaceStore) : WorkspaceStore :=
  { state with designMode := true }

/-- `exitDesignMode`: only clears the flag. -/
def exitDesignMode (state : WorkspaceStore) : WorkspaceStore :=
  { state with designMode := false }

/-- `toggleDesignMode`: flips the flag and clears or recomputes the slot
cache. -/
def toggleDesignMode (state : WorkspaceStore) : WorkspaceStore :=
  let designMode := !state.designMode
  { state with
    designMode := designMode
    slots := if designMode then none else some (getSlots state.dashboards) }

/-- `addWidget` (`freshId` stands for `uuidv4()`); `structuredClone` of the
descriptor constraints is value copying here. -/
def addWidget (state : WorkspaceStore) (descriptor : WidgetDescriptor)
    (layout : WidgetLayout) (dashboardId : Option String) (freshId : String) :
    WorkspaceStore :=
  updateDashboard state dashboardId (fun dashboard =>
    let w : RuntimeWidget :=
      { id := freshId
        type := descriptor.type
        layout := layout
        constraints := descriptor.constraints
        lookback := descriptor.slot.bind (fun s => s.lookback)
        props := descriptor.props.map (fun p => p.defaultValue)
        descriptor := descriptor
        slot := descriptor.slot.bind (fun s => s.defaultChannel) }
    { dashboard with widgets := recordSet dashboard.widgets freshId w })

/-- `removeWidget`. -/
def removeWidget (state : WorkspaceStore) (widgetId : String)
    (dashboardId : Option String) : WorkspaceStore :=
  updateDashboard state dashboardId (fun dashboard =>
    { dashboard with widgets := recordDelete dashboard.widgets widgetId })

/-- `layoutWidget`. -/
def layoutWidget (state : WorkspaceStore) (widgetId : String)
    (layout : WidgetLayout) (dashboardId : Option String) : WorkspaceStore :=
  updateWidgetIn state dashboardId widgetId (fun w => { w with layout := layout })

/-- `updateWidgetProps` (the incoming value is `unknown`). -/
def updateWidgetProps (state : WorkspaceStore) (widgetId : String)
    (props : Option Json) (dashboardId : Option String) : WorkspaceStore :=
  updateWidgetIn state dashboardId widgetId (fun w => { w with props := props })

/-- `updateWidgetLookback`. -/
def updateWidgetLookback (state : WorkspaceStore) (widgetId : String)
    (lookback : Rat) (dashboardId : Option String) : WorkspaceStore :=
  updateWidgetIn state dashboardId widgetId (fun w => { w with lookback := some lookback })

/-- `updateWidgetSlot` — note: it writes the widget field only, the `slots`
cache is not recomputed here. -/
def updateWidgetSlot (state : WorkspaceStore) (widgetId : String)
    (channelId : Option String) (dashboardId : Option String) : WorkspaceStore :=
  updateWidgetIn state dashboardId widgetId (fun w => { w with slot := channelId })

/-- `updateViewport`: `viewport ??= {x:0,y:0,scale:1}` then all three fields
are overwritten. -/
def updateViewport (state : WorkspaceStore) (x y scale : Rat)
    (dashboardId : Option String) : WorkspaceStore :=
  updateDashboard state dashboardId (fun dashboard =>
    { dashboard with viewport := some { x := x, y := y, scale := scale } })

/-- `markHydrated`. -/
def markHydrated (state : WorkspaceStore) : WorkspaceStore :=
  { state with hasHydrated := true }

/-! ## Observational equivalence of runtime states

The round-trip contract compares dashboard ids, viewports, and widget sets by
id/type/layout/slot/lookback/props (widget order within a dashboard and
dashboard display names are not compared; `props` compare by JS deep
equality). -/

def widgetObsEq (a b : RuntimeWidget) : Bool :=
  decide (a.id = b.id) && decide (a.type = b.type) &&
  decide (a.layout = b.layout) && decide (a.slot = b.slot) &&
  decide (a.lookback = b.lookback) && jsOptEq a.props b.props

def widgetSetLe (d1 d2 : RuntimeDashboard) : Bool :=
  d1.widgets.all (fun p => d2.widgets.any (fun q => widgetObsEq p.2 q.2))

def dashObsEq (a b : RuntimeDashboard) : Bool :=
  decide (a.id = b.id) && decide (a.viewport = b.viewport) &&
  widgetSetLe a b && widgetSetLe b a

def dashListObsEq : List RuntimeDashboard → List RuntimeDashboard → Bool
  | [], [] => true
  | a :: l1, b :: l2 => dashObsEq a b && dashListObsEq l1 l2
  | _, _ => false

def storeObsEq (s1 s2 : WorkspaceStore) : Bool :=
  dashObsEq s1.dashboards.auto s2.dashboards.auto &&
  dashObsEq s1.dashboards.teleop s2.dashboards.teleop &&
  dashListObsEq s1.dashboards.custom s2.dashboards.custom

/-- `toRuntime(toPersisted(s))` merged over `s`, the round-trip state. -/
def roundTripState (s : WorkspaceStore) : WorkspaceStore :=
  mergeState (some (persistState s)) s

/-! ## Reachability through the public mutation operations

One step per action of `WorkspaceStoreActions`; `R` restricts the descriptors
`addWidget` may be called with (`fun _ => True` for arbitrary callers, a
registry-membership condition for the round-trip claim).  Fresh-identifier
arguments over-approximate `uuidv4()`. -/

inductive WorkspaceStep (R : WidgetDescriptor → Prop) :
    WorkspaceStore → WorkspaceStore → Prop where
  | importStep (s : WorkspaceStore) (document : Json) :
      WorkspaceStep R s (workspaceImport s document).1
  | addDashboardStep (s : WorkspaceStore) (freshId : String) :
      WorkspaceStep R s (addDashboard s freshId)
  | removeDashboardStep (s : WorkspaceStore) (id : String) :
      WorkspaceStep R s (removeDashboard s id)
  | moveDashboardStep (s : WorkspaceStore) (id targetId : String)
      (s' : WorkspaceStore) (h : moveDashboard s id targetId = some s') :
      WorkspaceStep R s s'
  | selectDashboardStep (s : WorkspaceStore) (id : String) :
      WorkspaceStep R s (selectDashboard s id)
  | selectDashboardByKeyStep (s : WorkspaceStore) (index : Int) :
      WorkspaceStep R s (selectDashboardByKey s index)
  | enterDesignModeStep (s : WorkspaceStore) :
      WorkspaceStep R s (enterDesignMode s)
  | exitDesignModeStep (s : WorkspaceStore) :
      WorkspaceStep R s (exitDesignMode s)
  | toggleDesignModeStep (s : WorkspaceStore) :
      WorkspaceStep R s (toggleDesignMode s)
  | addWidgetStep (s : WorkspaceStore) (descriptor : WidgetDescriptor)
      (layout : WidgetLayout) (dashboardId : Option String) (freshId : String)
      (hR : R descriptor) :
      WorkspaceStep R s (addWidget s descriptor layout dashboardId freshId)
  | removeWidgetStep (s : WorkspaceStore) (widgetId : String)
      (dashboardId : Option String) :
      WorkspaceStep R s (removeWidget s widgetId dashboardId)
  | layoutWidgetStep (s : WorkspaceStore) (widgetId : String)
      (layout : WidgetLayout) (dashboardId : Option String) :
      WorkspaceStep R s (layoutWidget s widgetId layout dashboardId)
  | updateWidgetPropsStep (s : WorkspaceStore) (widgetId : String)
      (props : Option Json) (dashboardId : Option String) :
      WorkspaceStep R s (updateWidgetProps s widgetId props dashboardId)
  | updateWidgetLookbackStep (s : WorkspaceStore) (widgetId : String)
      (lookback : Rat) (dashboardId : Option String) :
      WorkspaceStep R s (updateWidgetLookback s widgetId lookback dashboardId)
  | updateWidgetSlotStep (s : WorkspaceStore) (widgetId : String)
      (channelId : Option String) (dashboardId : Option String) :
      WorkspaceStep R s (updateWidgetSlot s widgetId channelId dashboardId)
  | updateViewportStep (s : WorkspaceStore) (x y scale : Rat)
      (dashboardId : Option String) :
      WorkspaceStep R s (updateViewport s x y scale dashboardId)
  | markHydratedStep (s : WorkspaceStore) :
      WorkspaceStep R s (markHydrated s)

inductive ReachableVia (R : WidgetDescriptor → Prop) : WorkspaceStore → Prop where
  | base : ReachableVia R defaultState
  | step {s s' : WorkspaceStore} :
      ReachableVia R s → WorkspaceStep R s s' → ReachableVia R s'

/-- Reachable through the public operations (arbitrary descriptors). -/
def Reachable (s : WorkspaceStore) : Prop :=
  ReachableVia (fun _ => True) s

/-- Reachable using only widgets taken from the registry. -/
def ReachableRegistry (s : WorkspaceStore) : Prop :=
  ReachableVia (fun d => WidgetRegistry d.type = some d) s

/-! ## Invariants -/

def allDashboards (s : WorkspaceStore) : List RuntimeDashboard :=
  s.dashboards.auto :: s.dashboards.teleop :: s.dashboards.custom

/-- A widget map entry is keyed by its widget's id and its descriptor is the
registry entry for its type. -/
def widgetEntryWF (p : String × RuntimeWidget) : Prop :=
  p.1 = p.2.id ∧ WidgetRegistry p.2.type = some p.2.descriptor

def dashboardWidgetsWF (d : RuntimeDashboard) : Prop :=
  (d.widgets.map Prod.fst).Nodup ∧ ∀ p ∈ d.widgets, widgetEntryWF p

/-- Structural well-formedness of a runtime state: fixed singleton ids and
well-formed widget maps everywhere. -/
def storeWF (s : WorkspaceStore) : Prop :=
  s.dashboards.auto.id = "auto" ∧ s.dashboards.teleop.id = "teleop" ∧
  ∀ d ∈ allDashboards s, dashboardWidgetsWF d

/-- Every widget's stored props survive re-validation against its descriptor
(up to JS deep equality). -/
def propsReparse (s : WorkspaceStore) : Bool :=
  (allDashboards s).all (fun d => d.widgets.all (fun p =>
    jsOptEq p.2.props (some (parseWidgetProps p.2.props p.2.descriptor))))

/-- Positional custom dashboard names starting at index `i`. -/
def namedFrom (i : Int) : List RuntimeDashboard → Bool
  | [] => true
  | d :: rest => decide (d.name = dashboardName i) && namedFrom (i + 1) rest

/-! ## Concrete scenario inputs used by witnesses and counterexamples -/

def scenarioLayout : WidgetLayout :=
  { left := 0, top := 0, width := 6, height := 6 }

/-- A slider widget freshly added to the teleop dashboard. -/
def sliderAddedState : WorkspaceStore :=
  addWidget defaultState WidgetSliderDescriptor scenarioLayout (some "teleop") "w1"

/-- A slider and an FMS widget freshly added to the teleop dashboard. -/
def sliderFmsAddedState : WorkspaceStore :=
  addWidget sliderAddedState WidgetFMSDescriptor scenarioLayout (some "teleop") "w2"

/-- The same widget after the caller stored props its schema rejects. -/
def sliderBadPropsState : WorkspaceStore :=
  updateWidgetProps sliderAddedState "w1" (some (.str "boom")) (some "teleop")

/-- Four slider widgets; three get bound to `nt:/A`, `nt:/A`, `nt:/B` and one
stays unbound — the bound-slot scenario of the spec. -/
def slotScenarioState : WorkspaceStore :=
  updateWidgetSlot
    (updateWidgetSlot
      (updateWidgetSlot
        (addWidget
          (addWidget
            (addWidget
              (addWidget defaultState WidgetSliderDescriptor scenarioLayout (some "teleop") "w1")
              WidgetSliderDescriptor scenarioLayout (some "teleop") "w2")
            WidgetSliderDescriptor scenarioLayout (some "teleop") "w3")
          WidgetSliderDescriptor scenarioLayout (some "teleop") "w4")
        "w1" (some "nt:/A") (some "teleop"))
      "w2" (some "nt:/A") (some "teleop"))
    "w3" (some "nt:/B") (some "teleop")

/-- Three custom dashboards `d1`, `d2`, `d3`. -/
def threeDashState : WorkspaceStore :=
  addDashboard (addDashboard (addDashboard defaultState "d1") "d2") "d3"

/-- A document whose only flaw is `version: 2`. -/
def wrongVersionDoc : Json :=
  .obj (.cons "version" (.num 2)
    (.cons "dashboards" (.obj .nil) .nil))

/-- A teleop dashboard document holding one widget of the given type. -/
def oneWidgetDashJson (t : String) : Json :=
  .obj (.cons "id" (.str "teleop")
    (.cons "widgets"
      (.arr (.cons
        (.obj (.cons "id" (.str "wx")
          (.cons "type" (.str t)
            (.cons "layout"
              (.obj (.cons "left" (.num 0)
                (.cons "top" (.num 0)
                  (.cons "width" (.num 6) (.cons "height" (.num 6) .nil)))))
              .nil))))
        .nil))
      .nil))

/-- A version-1 document with one widget of the given type on teleop. -/
def oneWidgetDoc (t : String) : Json :=
  .obj (.cons "version" (.num 1)
    (.cons "dashboards"
      (.obj (.cons "teleop" (oneWidgetDashJson t) .nil))
      .nil))

/-- The widget as it comes back from `parseDashboard` after a persistence
round trip: everything preserved, `props` re-validated. -/
def reparsedWidget (w : RuntimeWidget) : RuntimeWidget :=
  { w with props := some (parseWidgetProps w.props w.descriptor) }

/-- The `version` property of an untrusted document value (`undefined` on
non-objects). -/
def documentVersionField (j : Json) : Option Json :=
  match j with
  | .obj f => f.lookup "version"
  | _ => none

/-- The three-dashboard state after removing the first custom dashboard. -/
def twoDashAfterRemoval : WorkspaceStore :=
  removeDashboard threeDashState "d1"

/-- The decoder output on `oneWidgetDoc "robot3d"`. -/
def robot3dDecodedDoc : WorkspaceDocument :=
  { version := 1
    dashboardId := none
    dashboards := some
      { auto := none
        teleop := some
          { id := "teleop"
            widgets := [{ id := "wx", type := "robot3d",
                          layout := { left := 0, top := 0, width := 6, height := 6 },
                          constraints := none, slot := none, lookback := none,
                          props := none }]
            viewport := none }
        custom := none } }

/-- A persisted slider widget whose props value its schema rejects. -/
def badPropsWidgetRecord : WidgetRecord :=
  { id := "wx", type := "slider", layout := scenarioLayout, constraints := none,
    slot := none, lookback := none, props := some (.str "boom") }

/-- A persisted teleop dashboard holding `badPropsWidgetRecord`. -/
def badPropsDashRecord : DashboardRecord :=
  { id := "teleop", widgets := [badPropsWidgetRecord], viewport := none }

/-! ## Helper lemmas: JS records -/

theorem recordGet_recordSet_same {α : Type} (m : List (String × α)) (k : String) (v : α) :
    recordGet (recordSet m k v) k = some v := by
  induction m with
  | nil => simp [recordSet, recordGet]
  | cons p rest ih =>
    by_cases h : p.1 = k
    · simp [recordSet, recordGet, h]
    · simp [recordSet, recordGet, h, ih]

theorem recordGet_recordSet_ne {α : Type} (m : List (String × α)) (k k' : String)
    (v : α) (h : ¬ k' = k) : recordGet (recordSet m k v) k' = recordGet m k' := by
  induction m with
  | nil =>
    simp only [recordSet, recordGet]
    rw [if_neg (fun hh => h hh.symm)]
  | cons p rest ih =>
    by_cases hp : p.1 = k
    · subst hp
      simp only [recordSet, if_pos rfl, recordGet]
      rw [if_neg (fun hh => h hh.symm), if_neg (fun hh => h hh.symm)]
    · simp only [recordSet, if_neg hp, recordGet, ih]

theorem recordSet_append_of_not_mem {α : Type} (m : List (String × α)) (k : String)
    (v : α) (h : ∀ p ∈ m, ¬ p.1 = k) : recordSet m k v = m ++ [(k, v)] := by
  induction m with
  | nil => simp [recordSet]
  | cons p rest ih =>
    have hp : ¬ p.1 = k := h p (by simp)
    simp only [recordSet, if_neg hp, List.cons_append, List.cons.injEq, true_and]
    exact ih (fun q hq => h q (by simp [hq]))

theorem mem_recordSet {α : Type} {m : List (String × α)} {k : String} {v : α}
    {q : String × α} (hq : q ∈ recordSet m k v) : q ∈ m ∨ q = (k, v) := by
  induction m with
  | nil => simpa [recordSet] using hq
  | cons p rest ih =>
    by_cases hp : p.1 = k
    · simp only [recordSet, if_pos hp, List.mem_cons] at hq
      rcases hq with hq | hq
      · exact Or.inr hq
      · exact Or.inl (by simp [hq])
    · simp only [recordSet, if_neg hp, List.mem_cons] at hq
      rcases hq with hq | hq
      · exact Or.inl (by simp [hq])
      · rcases ih hq with hh | hh
        · exact Or.inl (by simp [hh])
        · exact Or.inr hh

theorem recordSet_forall {α : Type} {P : String × α → Prop} {m : List (String × α)}
    {k : String} {v : α} (hm : ∀ p ∈ m, P p) (hv : P (k, v)) :
    ∀ p ∈ recordSet m k v, P p := by
  intro p hp
  rcases mem_recordSet hp with h | h
  · exact hm p h
  · simpa [h] using hv

theorem recordSet_keys_subset {α : Type} {m : List (String × α)} {k x : String}
    {v : α} (hx : x ∈ (recordSet m k v).map Prod.fst) :
    x ∈ m.map Prod.fst ∨ x = k := by
  simp only [List.mem_map] at hx
  rcases hx with ⟨q, hq, hqx⟩
  rcases mem_recordSet hq with h | h
  · exact Or.inl (List.mem_map.mpr ⟨q, h, hqx⟩)
  · subst h
    exact Or.inr hqx.symm

theorem recordSet_keys_nodup {α : Type} {m : List (String × α)} (k : String) (v : α)
    (h : (m.map Prod.fst).Nodup) : ((recordSet m k v).map Prod.fst).Nodup := by
  induction m with
  | nil => simp [recordSet]
  | cons p rest ih =>
    rw [List.map_cons, List.nodup_cons] at h
    by_cases hp : p.1 = k
    · subst hp
      simpa [recordSet, List.nodup_cons] using h
    · simp only [recordSet, if_neg hp, List.map_cons, List.nodup_cons]
      refine ⟨fun hx => ?_, ih h.2⟩
      rcases recordSet_keys_subset hx with hmem | heq
      · exact h.1 hmem
      · exact hp heq

theorem recordGet_eq_none {α : Type} {m : List (String × α)} {k : String}
    (h : ∀ p ∈ m, ¬ p.1 = k) : recordGet m k = none := by
  induction m with
  | nil => simp [recordGet]
  | cons p rest ih =>
    have hp : ¬ p.1 = k := h p (by simp)
    simp only [recordGet, if_neg hp]
    exact ih (fun q hq => h q (by simp [hq]))

theorem recordGet_eq_some {α : Type} {m : List (String × α)} {k : String} {v : α}
    (h : recordGet m k = some v) : (k, v) ∈ m := by
  induction m with
  | nil => simp [recordGet] at h
  | cons p rest ih =>
    by_cases hp : p.1 = k
    · rcases p with ⟨a, b⟩
      simp only [recordGet, if_pos hp, Option.some.injEq] at h
      simp only at hp
      subst hp
      subst h
      exact List.mem_cons_self _ _
    · simp only [recordGet, if_neg hp] at h
      exact List.mem_cons_of_mem _ (ih h)

/-! ## Helper lemmas: positional dashboard names -/

theorem namedFrom_append (i : Int) (l1 l2 : List RuntimeDashboard) :
    namedFrom i (l1 ++ l2) = (namedFrom i l1 && namedFrom (i + (l1.length : Int)) l2) := by
  induction l1 generalizing i with
  | nil => simp [namedFrom]
  | cons d rest ih =>
    have hidx : i + 1 + (rest.length : Int) = i + (((rest.length + 1 : Nat)) : Int) := by
      push_cast
      ring
    calc namedFrom i ((d :: rest) ++ l2)
        = (decide (d.name = dashboardName i) && namedFrom (i + 1) (rest ++ l2)) := rfl
      _ = (decide (d.name = dashboardName i) &&
            (namedFrom (i + 1) rest && namedFrom (i + 1 + (rest.length : Int)) l2)) := by
          rw [ih]
      _ = (namedFrom i (d :: rest) && namedFrom (i + (((rest.length + 1 : Nat)) : Int)) l2) := by
          rw [hidx, namedFrom, Bool.and_assoc]
      _ = (namedFrom i (d :: rest) && namedFrom (i + (((d :: rest).length : Nat) : Int)) l2) := by
          rw [List.length_cons]

theorem namedFrom_renumberFrom (i : Int) (l : List RuntimeDashboard) :
    namedFrom i (renumberFrom i l) = true := by
  induction l generalizing i with
  | nil => simp [renumberFrom, namedFrom]
  | cons d rest ih => simp [renumberFrom, namedFrom, ih]

theorem namedFrom_take (i : Int) (n : Nat) (l : List RuntimeDashboard)
    (h : namedFrom i l = true) : namedFrom i (l.take n) = true := by
  induction l generalizing i n with
  | nil => simp [namedFrom]
  | cons d rest ih =>
    cases n with
    | zero => simp [namedFrom]
    | succ n =>
      simp only [namedFrom, Bool.and_eq_true] at h
      simpa [namedFrom, h.1] using ih (i + 1) n h.2

theorem eraseIdx_take (l : List RuntimeDashboard) (n : Nat) :
    (l.eraseIdx n).take n = l.take n := by
  induction l generalizing n with
  | nil => simp
  | cons d rest ih =>
    cases n with
    | zero => simp
    | succ n => simpa using ih n

theorem namedFrom_parseCustomFrom (i : Int) (rs : List DashboardRecord) :
    namedFrom i (parseCustomFrom i rs) = true := by
  induction rs generalizing i with
  | nil => simp [parseCustomFrom, namedFrom]
  | cons r rest ih => simp [parseCustomFrom, namedFrom, parseDashboard, ih]

theorem namedFrom_set (i : Int) (l : List RuntimeDashboard) (n : Nat)
    (d d' : RuntimeDashboard) (hget : l.get? n = some d) (hname : d'.name = d.name)
    (h : namedFrom i l = true) : namedFrom i (l.set n d') = true := by
  induction l generalizing i n with
  | nil => simp [namedFrom]
  | cons x rest ih =>
    simp only [namedFrom, Bool.and_eq_true] at h
    cases n with
    | zero =>
      simp only [List.get?_cons_zero, Option.some.injEq] at hget
      subst hget
      simp [namedFrom, h.2, hname, h.1]
    | succ n =>
      simp only [List.get?_cons_succ] at hget
      simpa [namedFrom, h.1] using ih (i + 1) n hget h.2

/-! ## Helper lemmas: the persistence round trip -/

theorem parseWidgetStep_persistWidget (acc : List (String × RuntimeWidget))
    (p : String × RuntimeWidget) (hwf : widgetEntryWF p) :
    parseWidgetStep acc (persistWidget p) = recordSet acc p.1 (reparsedWidget p.2) := by
  rcases hwf with ⟨hk, hreg⟩
  simp only [parseWidgetStep, persistWidget, hreg]
  rw [hk]
  rfl

theorem foldl_parseWidgetStep_append (ws : List (String × RuntimeWidget))
    (acc : List (String × RuntimeWidget))
    (hwf : ∀ p ∈ ws, widgetEntryWF p)
    (hnd : (ws.map Prod.fst).Nodup)
    (hdisj : ∀ p ∈ ws, ∀ q ∈ acc, ¬ q.1 = p.1) :
    (ws.map persistWidget).foldl parseWidgetStep acc
      = acc ++ ws.map (fun p => (p.1, reparsedWidget p.2)) := by
  induction ws generalizing acc with
  | nil => simp
  | cons p rest ih =>
    rw [List.map_cons, List.foldl_cons,
        parseWidgetStep_persistWidget _ _ (hwf p (by simp)),
        recordSet_append_of_not_mem _ _ _ (fun q hq => hdisj p (by simp) q hq)]
    rw [List.map_cons, List.nodup_cons] at hnd
    rw [ih (acc ++ [(p.1, reparsedWidget p.2)]) (fun q hq => hwf q (by simp [hq])) hnd.2]
    · simp
    · intro r hr q hq
      rcases List.mem_append.mp hq with hq | hq
      · exact hdisj r (by simp [hr]) q hq
      · have hq1 : q.1 = p.1 := by
          rcases List.mem_singleton.mp hq with h
          simp [h]
        rw [hq1]
        intro hcontra
        exact hnd.1 (by rw [hcontra]; exact List.mem_map.mpr ⟨r, hr, rfl⟩)

theorem parse_persist_widgets (d : RuntimeDashboard) (ty : DashboardType)
    (idx : Option Int) (hwf : dashboardWidgetsWF d) :
    (parseDashboard (some (persistDashboard d)) ty idx).widgets
      = d.widgets.map (fun p => (p.1, reparsedWidget p.2)) := by
  rcases hwf with ⟨hnd, hall⟩
  have : (parseDashboard (some (persistDashboard d)) ty idx).widgets
      = (d.widgets.map persistWidget).foldl parseWidgetStep [] := rfl
  rw [this, foldl_parseWidgetStep_append d.widgets [] hall hnd (by simp)]
  simp

theorem jsOptEq_symm {a b : Option Json} (h : jsOptEq a b = true) :
    jsOptEq b a = true := by
  cases a <;> cases b <;> simp_all [jsOptEq, Bool.and_comm]

theorem widgetObsEq_reparsed {w : RuntimeWidget}
    (h : jsOptEq w.props (some (parseWidgetProps w.props w.descriptor)) = true) :
    widgetObsEq w (reparsedWidget w) = true ∧ widgetObsEq (reparsedWidget w) w = true := by
  constructor <;> simp [widgetObsEq, reparsedWidget, h, jsOptEq_symm h]

theorem dashObsEq_of_widgets_map {d parsed : RuntimeDashboard}
    (hid : parsed.id = d.id) (hvp : parsed.viewport = d.viewport)
    (hw : parsed.widgets = d.widgets.map (fun p => (p.1, reparsedWidget p.2)))
    (hp : ∀ p ∈ d.widgets,
      jsOptEq p.2.props (some (parseWidgetProps p.2.props p.2.descriptor)) = true) :
    dashObsEq d parsed = true := by
  simp only [dashObsEq, Bool.and_eq_true, decide_eq_true_eq]
  refine ⟨⟨⟨hid.symm, hvp.symm⟩, ?_⟩, ?_⟩
  · rw [widgetSetLe, List.all_eq_true]
    intro p hpmem
    rw [List.any_eq_true]
    refine ⟨(p.1, reparsedWidget p.2), ?_, (widgetObsEq_reparsed (hp p hpmem)).1⟩
    rw [hw]
    exact List.mem_map.mpr ⟨p, hpmem, rfl⟩
  · rw [widgetSetLe, List.all_eq_true]
    intro q hqmem
    rw [hw] at hqmem
    rcases List.mem_map.mp hqmem with ⟨p, hpmem, hpq⟩
    rw [List.any_eq_true]
    refine ⟨p, hpmem, ?_⟩
    rw [← hpq]
    exact (widgetObsEq_reparsed (hp p hpmem)).2

theorem dashListObsEq_parseCustom (l : List RuntimeDashboard) (i : Int)
    (hwf : ∀ d ∈ l, dashboardWidgetsWF d)
    (hp : ∀ d ∈ l, ∀ p ∈ d.widgets,
      jsOptEq p.2.props (some (parseWidgetProps p.2.props p.2.descriptor)) = true) :
    dashListObsEq l (parseCustomFrom i (l.map persistDashboard)) = true := by
  induction l generalizing i with
  | nil => rfl
  | cons d rest ih =>
    rw [List.map_cons, parseCustomFrom, dashListObsEq, Bool.and_eq_true]
    refine ⟨dashObsEq_of_widgets_map rfl rfl
      (parse_persist_widgets d .custom (some i) (hwf d (by simp)))
      (fun p hp2 => hp d (by simp) p hp2), ?_⟩
    exact ih (i + 1) (fun x hx => hwf x (by simp [hx])) (fun x hx => hp x (by simp [hx]))

theorem storeObsEq_roundTrip_of_WF (s : WorkspaceStore) (hwf : storeWF s)
    (hp : propsReparse s = true) : storeObsEq s (roundTripState s) = true := by
  obtain ⟨hauto, hteleop, hdash⟩ := hwf
  rw [propsReparse, List.all_eq_true] at hp
  have hauto_wf := hdash s.dashboards.auto (by simp [allDashboards])
  have hteleop_wf := hdash s.dashboards.teleop (by simp [allDashboards])
  have hauto_p := hp s.dashboards.auto (by simp [allDashboards])
  have hteleop_p := hp s.dashboards.teleop (by simp [allDashboards])
  rw [List.all_eq_true] at hauto_p hteleop_p
  have hroundAuto : (roundTripState s).dashboards.auto
      = parseDashboard (some (persistDashboard s.dashboards.auto)) .auto none := rfl
  have hroundTeleop : (roundTripState s).dashboards.teleop
      = parseDashboard (some (persistDashboard s.dashboards.teleop)) .teleop none := rfl
  have hroundCustom : (roundTripState s).dashboards.custom
      = parseCustomFrom 0 (s.dashboards.custom.map persistDashboard) := rfl
  rw [storeObsEq, Bool.and_eq_true, Bool.and_eq_true, hroundAuto, hroundTeleop, hroundCustom]
  refine ⟨⟨?_, ?_⟩, ?_⟩
  · exact dashObsEq_of_widgets_map (by rw [hauto]; rfl) rfl
      (parse_persist_widgets _ .auto none hauto_wf)
      (fun p hp2 => by simpa using hauto_p p hp2)
  · exact dashObsEq_of_widgets_map (by rw [hteleop]; rfl) rfl
      (parse_persist_widgets _ .teleop none hteleop_wf)
      (fun p hp2 => by simpa using hteleop_p p hp2)
  · refine dashListObsEq_parseCustom _ 0
      (fun d hd => hdash d (by simp [allDashboards, hd]))
      (fun d hd p hp2 => ?_)
    have := hp d (by simp [allDashboards, hd])
    rw [List.all_eq_true] at this
    simpa using this p hp2

/-! ## Helper lemmas: indices, arrayMove, parse well-formedness -/

theorem findIndexOpt_lt_length {α : Type} {p : α → Bool} {l : List α} {i : Nat}
    (h : findIndexOpt p l = some i) : i < l.length := by
  induction l generalizing i with
  | nil => simp [findIndexOpt] at h
  | cons x rest ih =>
    by_cases hx : p x
    · simp only [findIndexOpt, if_pos hx, Option.some.injEq] at h
      subst h
      simp only [List.length_cons]
      omega
    · simp only [findIndexOpt, if_neg hx, Option.map_eq_some'] at h
      rcases h with ⟨j, hj, hij⟩
      have := ih hj
      simp only [List.length_cons]
      omega

theorem findIndexOpt_get? {α : Type} {p : α → Bool} {l : List α} {i : Nat}
    (h : findIndexOpt p l = some i) : ∃ x, l.get? i = some x ∧ p x = true := by
  induction l generalizing i with
  | nil => simp [findIndexOpt] at h
  | cons x rest ih =>
    by_cases hx : p x
    · simp only [findIndexOpt, if_pos hx, Option.some.injEq] at h
      subst h
      exact ⟨x, rfl, hx⟩
    · simp only [findIndexOpt, if_neg hx, Option.map_eq_some'] at h
      rcases h with ⟨j, hj, hij⟩
      subst hij
      simpa using ih hj

theorem findIndexOpt_eq_none {α : Type} {p : α → Bool} {l : List α}
    (h : ∀ x ∈ l, ¬ p x = true) : findIndexOpt p l = none := by
  induction l with
  | nil => rfl
  | cons x rest ih =>
    have hx : ¬ p x = true := h x (by simp)
    simp only [findIndexOpt, if_neg hx, Option.map_eq_none']
    exact ih (fun y hy => h y (by simp [hy]))

theorem mem_insertIdx_any {α : Type} {x a : α} {n : Nat} {l : List α}
    (hx : x ∈ l.insertIdx n a) : x = a ∨ x ∈ l := by
  induction l generalizing n with
  | nil =>
    cases n with
    | zero => simpa using hx
    | succ n => simp at hx
  | cons y ys ih =>
    cases n with
    | zero =>
      rcases List.mem_cons.mp hx with hx | hx
      · exact Or.inl hx
      · exact Or.inr hx
    | succ n =>
      rcases List.mem_cons.mp hx with hx | hx
      · exact Or.inr (by simp [hx])
      · rcases ih hx with hx | hx
        · exact Or.inl hx
        · exact Or.inr (by simp [hx])

theorem mem_of_arrayMove {α : Type} {array : List α} {i j : Int} {x : Option α}
    (hx : x ∈ arrayMove array i j) : x = none ∨ ∃ a ∈ array, x = some a := by
  unfold arrayMove at hx
  rcases mem_insertIdx_any hx with hx | hx
  · subst hx
    cases hget : array.get? (if i < 0 then ((array.length : Int) + i).toNat
        else min i.toNat array.length) with
    | none => exact Or.inl rfl
    | some a =>
      right
      exact ⟨a, List.get?_mem hget, rfl⟩
  · rcases List.mem_map.mp hx with ⟨a, ha, hax⟩
    right
    refine ⟨a, ?_, hax.symm⟩
    exact (List.eraseIdx_sublist array _).subset ha

theorem parseDashboard_id_auto (r : Option DashboardRecord) (idx : Option Int) :
    (parseDashboard r .auto idx).id = "auto" := by
  cases r <;> rfl

theorem parseDashboard_id_teleop (r : Option DashboardRecord) (idx : Option Int) :
    (parseDashboard r .teleop idx).id = "teleop" := by
  cases r <;> rfl

theorem foldl_parseWidgetStep_WF (ws : List WidgetRecord)
    (acc : List (String × RuntimeWidget))
    (hnd : (acc.map Prod.fst).Nodup) (hall : ∀ p ∈ acc, widgetEntryWF p) :
    ((ws.foldl parseWidgetStep acc).map Prod.fst).Nodup ∧
      ∀ p ∈ ws.foldl parseWidgetStep acc, widgetEntryWF p := by
  induction ws generalizing acc with
  | nil => exact ⟨hnd, hall⟩
  | cons w rest ih =>
    rw [List.foldl_cons]
    rcases hreg : WidgetRegistry w.type with _ | desc
    · have hstep : parseWidgetStep acc w = acc := by
        simp [parseWidgetStep, hreg]
      rw [hstep]
      exact ih acc hnd hall
    · have hstep : parseWidgetStep acc w = recordSet acc w.id
          { id := w.id, type := w.type, layout := w.layout,
            constraints := w.constraints, slot := w.slot, lookback := w.lookback,
            props := some (parseWidgetProps w.props desc), descriptor := desc } := by
        simp [parseWidgetStep, hreg]
      rw [hstep]
      exact ih _ (recordSet_keys_nodup _ _ hnd) (recordSet_forall hall ⟨rfl, hreg⟩)

theorem parseDashboard_WF (r : Option DashboardRecord) (ty : DashboardType)
    (idx : Option Int) : dashboardWidgetsWF (parseDashboard r ty idx) := by
  cases r with
  | none =>
    exact ⟨List.nodup_nil, fun p hp => absurd hp (List.not_mem_nil p)⟩
  | some d =>
    exact foldl_parseWidgetStep_WF d.widgets [] List.nodup_nil
      (fun p hp => absurd hp (List.not_mem_nil p))

theorem parseCustomFrom_WF (rs : List DashboardRecord) (i : Int) :
    ∀ d ∈ parseCustomFrom i rs, dashboardWidgetsWF d := by
  induction rs generalizing i with
  | nil => simp [parseCustomFrom]
  | cons r rest ih =>
    intro d hd
    rcases List.mem_cons.mp hd with hd | hd
    · subst hd
      exact parseDashboard_WF _ _ _
    · exact ih (i + 1) d hd

theorem storeWF_mergeState (r : Option WorkspaceDocument) (s : WorkspaceStore) :
    storeWF (mergeState r s) := by
  refine ⟨parseDashboard_id_auto ((r.bind (fun x => x.dashboards)).bind (fun d => d.auto)) none,
    parseDashboard_id_teleop ((r.bind (fun x => x.dashboards)).bind (fun d => d.teleop)) none, ?_⟩
  intro d hd
  rcases List.mem_cons.mp hd with hd | hd
  · subst hd
    exact parseDashboard_WF _ _ _
  rcases List.mem_cons.mp hd with hd | hd
  · subst hd
    exact parseDashboard_WF _ _ _
  · exact parseCustomFrom_WF _ _ d hd

theorem renumberFrom_WF {l : List RuntimeDashboard}
    (h : ∀ d ∈ l, dashboardWidgetsWF d) (i : Int) :
    ∀ d ∈ renumberFrom i l, dashboardWidgetsWF d := by
  induction l generalizing i with
  | nil => simp [renumberFrom]
  | cons x rest ih =>
    intro d hd
    rcases List.mem_cons.mp hd with hd | hd
    · subst hd
      exact h x (by simp)
    · exact ih (fun y hy => h y (by simp [hy])) (i + 1) d hd

/-! ## Helper lemmas: invariant preservation across the actions -/

theorem mem_allDashboards_auto (s : WorkspaceStore) :
    s.dashboards.auto ∈ allDashboards s := List.mem_cons_self _ _

theorem mem_allDashboards_teleop (s : WorkspaceStore) :
    s.dashboards.teleop ∈ allDashboards s :=
  List.mem_cons_of_mem _ (List.mem_cons_self _ _)

theorem mem_allDashboards_custom (s : WorkspaceStore) {d : RuntimeDashboard}
    (h : d ∈ s.dashboards.custom) : d ∈ allDashboards s :=
  List.mem_cons_of_mem _ (List.mem_cons_of_mem _ h)

theorem storeWF_defaultState : storeWF defaultState := by
  refine ⟨rfl, rfl, ?_⟩
  intro d hd
  rcases List.mem_cons.mp hd with hd | hd
  · subst hd
    exact ⟨List.nodup_nil, fun p hp => absurd hp (List.not_mem_nil p)⟩
  rcases List.mem_cons.mp hd with hd | hd
  · subst hd
    exact ⟨List.nodup_nil, fun p hp => absurd hp (List.not_mem_nil p)⟩
  · exact absurd hd (List.not_mem_nil d)

theorem storeWF_applyAtAddr (s : WorkspaceStore) (addr : DashboardAddr)
    (f : RuntimeDashboard → RuntimeDashboard) (hwf : storeWF s)
    (hf : ∀ d, dashboardWidgetsWF d → dashboardWidgetsWF (f d))
    (hfid : ∀ d, (f d).id = d.id) :
    storeWF (applyAtAddr s addr f) := by
  rcases hwf with ⟨ha, ht, hd⟩
  cases addr with
  | auto =>
    refine ⟨?_, ht, ?_⟩
    · show (f s.dashboards.auto).id = "auto"
      rw [hfid, ha]
    · intro d hd2
      rcases List.mem_cons.mp hd2 with h2 | h2
      · subst h2
        exact hf _ (hd _ (mem_allDashboards_auto s))
      rcases List.mem_cons.mp h2 with h2 | h2
      · subst h2
        exact hd _ (mem_allDashboards_teleop s)
      · exact hd _ (mem_allDashboards_custom s h2)
  | teleop =>
    refine ⟨ha, ?_, ?_⟩
    · show (f s.dashboards.teleop).id = "teleop"
      rw [hfid, ht]
    · intro d hd2
      rcases List.mem_cons.mp hd2 with h2 | h2
      · subst h2
        exact hd _ (mem_allDashboards_auto s)
      rcases List.mem_cons.mp h2 with h2 | h2
      · subst h2
        exact hf _ (hd _ (mem_allDashboards_teleop s))
      · exact hd _ (mem_allDashboards_custom s h2)
  | custom i =>
    rw [applyAtAddr]
    cases hget : s.dashboards.custom.get? i with
    | none => exact ⟨ha, ht, hd⟩
    | some d0 =>
      refine ⟨ha, ht, ?_⟩
      intro d hd2
      rcases List.mem_cons.mp hd2 with h2 | h2
      · subst h2
        exact hd _ (mem_allDashboards_auto s)
      rcases List.mem_cons.mp h2 with h2 | h2
      · subst h2
        exact hd _ (mem_allDashboards_teleop s)
      · rcases List.mem_or_eq_of_mem_set h2 with h2 | h2
        · exact hd _ (mem_allDashboards_custom s h2)
        · subst h2
          exact hf _ (hd _ (mem_allDashboards_custom s (List.get?_mem hget)))

theorem storeWF_updateDashboard (s : WorkspaceStore) (id : Option String)
    (f : RuntimeDashboard → RuntimeDashboard) (hwf : storeWF s)
    (hf : ∀ d, dashboardWidgetsWF d → dashboardWidgetsWF (f d))
    (hfid : ∀ d, (f d).id = d.id) :
    storeWF (updateDashboard s id f) := by
  rw [updateDashboard]
  cases resolveDashboard s id with
  | none => exact hwf
  | some addr => exact storeWF_applyAtAddr s addr f hwf hf hfid

theorem storeWF_updateWidgetIn (s : WorkspaceStore) (did : Option String)
    (wid : String) (g : RuntimeWidget → RuntimeWidget)
    (hg : ∀ w, (g w).id = w.id ∧ (g w).type = w.type ∧ (g w).descriptor = w.descriptor)
    (hwf : storeWF s) : storeWF (updateWidgetIn s did wid g) := by
  refine storeWF_updateDashboard s did _ hwf ?_ ?_
  · intro d hdwf
    cases hrec : recordGet d.widgets wid with
    | none => simpa [hrec] using hdwf
    | some w =>
      simp only [hrec]
      rcases hdwf with ⟨hnd, hall⟩
      obtain ⟨hwid, hreg⟩ := hall _ (recordGet_eq_some hrec)
      refine ⟨recordSet_keys_nodup _ _ hnd, recordSet_forall hall ?_⟩
      constructor
      · show wid = (g w).id
        rw [(hg w).1]
        exact hwid
      · show WidgetRegistry (g w).type = some (g w).descriptor
        rw [(hg w).2.1, (hg w).2.2]
        exact hreg
  · intro d
    cases recordGet d.widgets wid <;> rfl

theorem moveDashboard_eq {s : WorkspaceStore} {id targetId : String}
    {s' : WorkspaceStore} (h : moveDashboard s id targetId = some s') :
    s' = { s with dashboards := { s.dashboards with
      custom := renumberFrom 0 ((arrayMove s.dashboards.custom
        (findIndexById s.dashboards.custom id)
        (findIndexById s.dashboards.custom targetId)).filterMap (fun x => x)) } } := by
  simp only [moveDashboard] at h
  split at h
  · exact (Option.some_inj.mp h).symm
  · exact absurd h (by simp)

theorem mem_filterMap_arrayMove {array : List RuntimeDashboard} {i j : Int}
    {x : RuntimeDashboard} (hx : x ∈ (arrayMove array i j).filterMap (fun y => y)) :
    x ∈ array := by
  rcases List.mem_filterMap.mp hx with ⟨a, ha, hax⟩
  rcases mem_of_arrayMove ha with h | ⟨b, hb, hba⟩
  · subst h
    simp at hax
  · subst hba
    simp only [Option.some_inj] at hax
    subst hax
    exact hb

theorem reachableVia_storeWF {R : WidgetDescriptor → Prop}
    (hR : ∀ d, R d → WidgetRegistry d.type = some d)
    {s : WorkspaceStore} (h : ReachableVia R s) : storeWF s := by
  induction h with
  | base => exact storeWF_defaultState
  | @step s s' hr hstep ih =>
    cases hstep with
    | importStep doc =>
      cases hdec : decodeWorkspaceDocument doc with
      | ok r =>
        have heq : (workspaceImport s doc).1 = mergeState (some r) s := by
          simp [workspaceImport, hdec]
        rw [heq]
        exact storeWF_mergeState _ _
      | error e =>
        have heq : (workspaceImport s doc).1 = s := by
          simp [workspaceImport, hdec]
        rw [heq]
        exact ih
    | addDashboardStep freshId =>
      rcases ih with ⟨ha, ht, hd⟩
      refine ⟨ha, ht, ?_⟩
      intro d hd2
      rcases List.mem_cons.mp hd2 with h2 | h2
      · subst h2
        exact hd _ (mem_allDashboards_auto s)
      rcases List.mem_cons.mp h2 with h2 | h2
      · subst h2
        exact hd _ (mem_allDashboards_teleop s)
      · rcases List.mem_append.mp h2 with h2 | h2
        · exact hd _ (mem_allDashboards_custom s h2)
        · rcases List.mem_singleton.mp h2 with h2
          subst h2
          exact ⟨List.nodup_nil, fun p hp => absurd hp (List.not_mem_nil p)⟩
    | removeDashboardStep id =>
      rcases ih with ⟨ha, ht, hd⟩
      simp only [removeDashboard]
      cases hidx : findIndexOpt (fun d => d.id = id) s.dashboards.custom with
      | none => exact ⟨ha, ht, hd⟩
      | some index =>
        refine ⟨ha, ht, ?_⟩
        intro d hd2
        rcases List.mem_cons.mp hd2 with h2 | h2
        · subst h2
          exact hd _ (mem_allDashboards_auto s)
        rcases List.mem_cons.mp h2 with h2 | h2
        · subst h2
          exact hd _ (mem_allDashboards_teleop s)
        · rcases List.mem_append.mp h2 with h2 | h2
          · exact hd _ (mem_allDashboards_custom s
              ((List.eraseIdx_sublist _ _).subset (List.take_subset _ _ h2)))
          · refine renumberFrom_WF (fun y hy => ?_) _ d h2
            exact hd _ (mem_allDashboards_custom s
              ((List.eraseIdx_sublist _ _).subset (List.drop_subset _ _ hy)))
    | moveDashboardStep id targetId s2 hmv =>
      rcases ih with ⟨ha, ht, hd⟩
      rw [moveDashboard_eq hmv]
      refine ⟨ha, ht, ?_⟩
      intro d hd2
      rcases List.mem_cons.mp hd2 with h2 | h2
      · subst h2
        exact hd _ (mem_allDashboards_auto s)
      rcases List.mem_cons.mp h2 with h2 | h2
      · subst h2
        exact hd _ (mem_allDashboards_teleop s)
      · refine renumberFrom_WF (fun y hy => ?_) _ d h2
        exact hd _ (mem_allDashboards_custom s (mem_filterMap_arrayMove hy))
    | selectDashboardStep id =>
      rw [selectDashboard]
      cases getDashboard s (some id) with
      | none => exact ih
      | some d => exact ih
    | selectDashboardByKeyStep index =>
      rw [selectDashboardByKey]
      split
      · cases s.dashboards.custom.get? index.toNat with
        | none => exact ih
        | some d => exact ih
      · exact ih
    | enterDesignModeStep => exact ih
    | exitDesignModeStep => exact ih
    | toggleDesignModeStep => exact ih
    | addWidgetStep descriptor layout dashboardId freshId hRdesc =>
      refine storeWF_updateDashboard s dashboardId _ ih ?_ (fun d => rfl)
      intro d hdwf
      rcases hdwf with ⟨hnd, hall⟩
      refine ⟨recordSet_keys_nodup _ _ hnd, recordSet_forall hall ?_⟩
      exact ⟨rfl, hR descriptor hRdesc⟩
    | removeWidgetStep widgetId dashboardId =>
      refine storeWF_updateDashboard s dashboardId _ ih ?_ (fun d => rfl)
      intro d hdwf
      rcases hdwf with ⟨hnd, hall⟩
      constructor
      · exact List.Nodup.sublist ((List.filter_sublist _).map Prod.fst) hnd
      · intro p hp
        exact hall p (List.mem_of_mem_filter hp)
    | layoutWidgetStep widgetId layout dashboardId =>
      exact storeWF_updateWidgetIn s dashboardId widgetId _
        (fun w => ⟨rfl, rfl, rfl⟩) ih
    | updateWidgetPropsStep widgetId props dashboardId =>
      exact storeWF_updateWidgetIn s dashboardId widgetId _
        (fun w => ⟨rfl, rfl, rfl⟩) ih
    | updateWidgetLookbackStep widgetId lookback dashboardId =>
      exact storeWF_updateWidgetIn s dashboardId widgetId _
        (fun w => ⟨rfl, rfl, rfl⟩) ih
    | updateWidgetSlotStep widgetId channelId dashboardId =>
      exact storeWF_updateWidgetIn s dashboardId widgetId _
        (fun w => ⟨rfl, rfl, rfl⟩) ih
    | updateViewportStep x y scale dashboardId =>
      refine storeWF_updateDashboard s dashboardId _ ih ?_ (fun d => rfl)
      intro d hdwf
      exact hdwf
    | markHydratedStep => exact ih

theorem namedFrom_updateDashboard (s : WorkspaceStore) (id : Option String)
    (f : RuntimeDashboard → RuntimeDashboard) (hf : ∀ d, (f d).name = d.name)
    (h : namedFrom 0 s.dashboards.custom = true) :
    namedFrom 0 (updateDashboard s id f).dashboards.custom = true := by
  rw [updateDashboard]
  cases resolveDashboard s id with
  | none => exact h
  | some addr =>
    cases addr with
    | auto => exact h
    | teleop => exact h
    | custom i =>
      cases hget : s.dashboards.custom.get? i with
      | none =>
        simp only [applyAtAddr, hget]
        exact h
      | some d =>
        simp only [applyAtAddr, hget]
        exact namedFrom_set 0 _ i d (f d) hget (hf d) h

theorem reachableVia_named {R : WidgetDescriptor → Prop}
    {s : WorkspaceStore} (h : ReachableVia R s) :
    namedFrom 0 s.dashboards.custom = true := by
  induction h with
  | base => rfl
  | @step s s' hr hstep ih =>
    cases hstep with
    | importStep doc =>
      cases hdec : decodeWorkspaceDocument doc with
      | ok r =>
        have heq : (workspaceImport s doc).1 = mergeState (some r) s := by
          simp [workspaceImport, hdec]
        rw [heq]
        exact namedFrom_parseCustomFrom 0 _
      | error e =>
        have heq : (workspaceImport s doc).1 = s := by
          simp [workspaceImport, hdec]
        rw [heq]
        exact ih
    | addDashboardStep freshId =>
      show namedFrom 0 (s.dashboards.custom ++
        [{ id := freshId, name := dashboardName (s.dashboards.custom.length : Int),
           type := .custom, widgets := [], viewport := none }]) = true
      rw [namedFrom_append]
      simp [namedFrom, ih]
    | removeDashboardStep id =>
      simp only [removeDashboard]
      cases hidx : findIndexOpt (fun d => d.id = id) s.dashboards.custom with
      | none => exact ih
      | some index =>
        have hlt := findIndexOpt_lt_length hidx
        have hlen : (s.dashboards.custom.eraseIdx index).length
            = s.dashboards.custom.length - 1 := by
          rw [List.length_eraseIdx]
          simp [hlt]
        show namedFrom 0 ((s.dashboards.custom.eraseIdx index).take index ++
          renumberFrom (index : Int) ((s.dashboards.custom.eraseIdx index).drop index)) = true
        rw [namedFrom_append, Bool.and_eq_true]
        refine ⟨?_, ?_⟩
        · rw [eraseIdx_take]
          exact namedFrom_take 0 index _ ih
        · have hlen2 : (((s.dashboards.custom.eraseIdx index).take index).length : Int)
              = (index : Int) := by
            rw [List.length_take]
            have : index ⊓ (s.dashboards.custom.eraseIdx index).length = index := by
              omega
            rw [this]
          rw [hlen2, zero_add]
          exact namedFrom_renumberFrom _ _
    | moveDashboardStep id targetId s2 hmv =>
      rw [moveDashboard_eq hmv]
      show namedFrom 0 (renumberFrom 0 _) = true
      exact namedFrom_renumberFrom 0 _
    | selectDashboardStep id =>
      rw [selectDashboard]
      cases getDashboard s (some id) with
      | none => exact ih
      | some d => exact ih
    | selectDashboardByKeyStep index =>
      rw [selectDashboardByKey]
      split
      · cases s.dashboards.custom.get? index.toNat with
        | none => exact ih
        | some d => exact ih
      · exact ih
    | enterDesignModeStep => exact ih
    | exitDesignModeStep => exact ih
    | toggleDesignModeStep => exact ih
    | addWidgetStep descriptor layout dashboardId freshId hRdesc =>
      exact namedFrom_updateDashboard s dashboardId _ (fun d => rfl) ih
    | removeWidgetStep widgetId dashboardId =>
      exact namedFrom_updateDashboard s dashboardId _ (fun d => rfl) ih
    | layoutWidgetStep widgetId layout dashboardId =>
      exact namedFrom_updateDashboard s dashboardId _
        (fun d => by cases recordGet d.widgets widgetId <;> rfl) ih
    | updateWidgetPropsStep widgetId props dashboardId =>
      exact namedFrom_updateDashboard s dashboardId _
        (fun d => by cases recordGet d.widgets widgetId <;> rfl) ih
    | updateWidgetLookbackStep widgetId lookback dashboardId =>
      exact namedFrom_updateDashboard s dashboardId _
        (fun d => by cases recordGet d.widgets widgetId <;> rfl) ih
    | updateWidgetSlotStep widgetId channelId dashboardId =>
      exact namedFrom_updateDashboard s dashboardId _
        (fun d => by cases recordGet d.widgets widgetId <;> rfl) ih
    | updateViewportStep x y scale dashboardId =>
      exact namedFrom_updateDashboard s dashboardId _ (fun d => rfl) ih
    | markHydratedStep => exact ih

/-! ## Helper lemmas: reachability chains and the version gate -/

theorem reachableVia_mono {R R' : WidgetDescriptor → Prop} (hRR : ∀ d, R d → R' d)
    {s : WorkspaceStore} (h : ReachableVia R s) : ReachableVia R' s := by
  induction h with
  | base => exact ReachableVia.base
  | @step s s' hr hstep ih =>
    refine ReachableVia.step ih ?_
    cases hstep with
    | importStep doc => exact WorkspaceStep.importStep s doc
    | addDashboardStep freshId => exact WorkspaceStep.addDashboardStep s freshId
    | removeDashboardStep id => exact WorkspaceStep.removeDashboardStep s id
    | moveDashboardStep id targetId s2 hmv =>
      exact WorkspaceStep.moveDashboardStep s id targetId s' hmv
    | selectDashboardStep id => exact WorkspaceStep.selectDashboardStep s id
    | selectDashboardByKeyStep index => exact WorkspaceStep.selectDashboardByKeyStep s index
    | enterDesignModeStep => exact WorkspaceStep.enterDesignModeStep s
    | exitDesignModeStep => exact WorkspaceStep.exitDesignModeStep s
    | toggleDesignModeStep => exact WorkspaceStep.toggleDesignModeStep s
    | addWidgetStep descriptor layout dashboardId freshId hRd =>
      exact WorkspaceStep.addWidgetStep s descriptor layout dashboardId freshId (hRR _ hRd)
    | removeWidgetStep widgetId dashboardId =>
      exact WorkspaceStep.removeWidgetStep s widgetId dashboardId
    | layoutWidgetStep widgetId layout dashboardId =>
      exact WorkspaceStep.layoutWidgetStep s widgetId layout dashboardId
    | updateWidgetPropsStep widgetId props dashboardId =>
      exact WorkspaceStep.updateWidgetPropsStep s widgetId props dashboardId
    | updateWidgetLookbackStep widgetId lookback dashboardId =>
      exact WorkspaceStep.updateWidgetLookbackStep s widgetId lookback dashboardId
    | updateWidgetSlotStep widgetId channelId dashboardId =>
      exact WorkspaceStep.updateWidgetSlotStep s widgetId channelId dashboardId
    | updateViewportStep x y scale dashboardId =>
      exact WorkspaceStep.updateViewportStep s x y scale dashboardId
    | markHydratedStep => exact WorkspaceStep.markHydratedStep s

theorem WidgetRegistry_slider : WidgetRegistry "slider" = some WidgetSliderDescriptor := by
  simp [WidgetRegistry]

theorem reachableReg_sliderAdded : ReachableRegistry sliderAddedState :=
  ReachableVia.step ReachableVia.base
    (WorkspaceStep.addWidgetStep _ _ _ _ _ WidgetRegistry_slider)

theorem WidgetRegistry_fms : WidgetRegistry "fms" = some WidgetFMSDescriptor := by
  simp [WidgetRegistry]

theorem reachableReg_sliderFmsAdded : ReachableRegistry sliderFmsAddedState :=
  ReachableVia.step reachableReg_sliderAdded
    (WorkspaceStep.addWidgetStep _ _ _ _ _ WidgetRegistry_fms)

theorem reachableReg_sliderBadProps : ReachableRegistry sliderBadPropsState :=
  ReachableVia.step reachableReg_sliderAdded
    (WorkspaceStep.updateWidgetPropsStep _ _ _ _)

theorem reachableReg_slotScenario : ReachableRegistry slotScenarioState :=
  ReachableVia.step
    (ReachableVia.step
      (ReachableVia.step
        (ReachableVia.step
          (ReachableVia.step
            (ReachableVia.step
              (ReachableVia.step ReachableVia.base
                (WorkspaceStep.addWidgetStep _ _ _ _ _ WidgetRegistry_slider))
              (WorkspaceStep.addWidgetStep _ _ _ _ _ WidgetRegistry_slider))
            (WorkspaceStep.addWidgetStep _ _ _ _ _ WidgetRegistry_slider))
          (WorkspaceStep.addWidgetStep _ _ _ _ _ WidgetRegistry_slider))
        (WorkspaceStep.updateWidgetSlotStep _ _ _ _))
      (WorkspaceStep.updateWidgetSlotStep _ _ _ _))
    (WorkspaceStep.updateWidgetSlotStep _ _ _ _)

theorem reachable_slotScenario : Reachable slotScenarioState :=
  reachableVia_mono (fun _ _ => trivial) reachableReg_slotScenario

theorem reachable_twoDash : Reachable twoDashAfterRemoval :=
  ReachableVia.step
    (ReachableVia.step
      (ReachableVia.step
        (ReachableVia.step ReachableVia.base
          (WorkspaceStep.addDashboardStep _ "d1"))
        (WorkspaceStep.addDashboardStep _ "d2"))
      (WorkspaceStep.addDashboardStep _ "d3"))
    (WorkspaceStep.removeDashboardStep _ "d1")

theorem decodeWorkspaceDocument_ok_version {j : Json} {d : WorkspaceDocument}
    (h : decodeWorkspaceDocument j = .ok d) :
    documentVersionField j = some (.num VERSION) := by
  cases j with
  | null => simp [decodeWorkspaceDocument] at h
  | bool b => simp [decodeWorkspaceDocument] at h
  | num n => simp [decodeWorkspaceDocument] at h
  | str s => simp [decodeWorkspaceDocument] at h
  | arr xs => simp [decodeWorkspaceDocument] at h
  | obj f =>
    simp only [decodeWorkspaceDocument] at h
    cases hv : f.lookup "version" with
    | none =>
      rw [hv] at h
      exact absurd h (by simp)
    | some v =>
      rw [hv] at h
      cases v with
      | num n =>
        by_cases hn : n = VERSION
        · rw [documentVersionField, hv, hn]
        · simp [hn] at h
      | null => simp at h
      | bool b => simp at h
      | str sv => simp at h
      | arr xs => simp at h
      | obj f2 => simp at h

theorem applyAtAddr_slots (s : WorkspaceStore) (addr : DashboardAddr)
    (f : RuntimeDashboard → RuntimeDashboard) :
    (applyAtAddr s addr f).slots = s.slots := by
  cases addr with
  | auto => rfl
  | teleop => rfl
  | custom i =>
    rw [applyAtAddr]
    cases s.dashboards.custom.get? i <;> rfl

theorem updateDashboard_slots (s : WorkspaceStore) (id : Option String)
    (f : RuntimeDashboard → RuntimeDashboard) :
    (updateDashboard s id f).slots = s.slots := by
  rw [updateDashboard]
  cases resolveDashboard s id with
  | none => rfl
  | some addr => exact applyAtAddr_slots s addr f

theorem foldl_parseWidgetStep_preserves (ws : List WidgetRecord)
    (acc : List (String × RuntimeWidget)) (k : String)
    (hws : ∀ r ∈ ws, ¬ r.id = k) :
    recordGet (ws.foldl parseWidgetStep acc) k = recordGet acc k := by
  induction ws generalizing acc with
  | nil => rfl
  | cons r rest ih =>
    rw [List.foldl_cons, ih _ (fun x hx => hws x (by simp [hx]))]
    cases hreg : WidgetRegistry r.type with
    | none => simp [parseWidgetStep, hreg]
    | some d =>
      have hstep : parseWidgetStep acc r = recordSet acc r.id
          { id := r.id, type := r.type, layout := r.layout,
            constraints := r.constraints, slot := r.slot, lookback := r.lookback,
            props := some (parseWidgetProps r.props d), descriptor := d } := by
        simp [parseWidgetStep, hreg]
      rw [hstep, recordGet_recordSet_ne _ _ _ _ (fun hk => hws r (by simp) hk.symm)]

theorem foldl_parseWidgetStep_get (ws : List WidgetRecord)
    (acc : List (String × RuntimeWidget)) (w : WidgetRecord)
    (descriptor : WidgetDescriptor) (hw : w ∈ ws)
    (hnd : (ws.map WidgetRecord.id).Nodup)
    (hreg : WidgetRegistry w.type = some descriptor)
    (hacc : ∀ p ∈ acc, ¬ p.1 = w.id) :
    recordGet (ws.foldl parseWidgetStep acc) w.id
      = some { id := w.id, type := w.type, layout := w.layout,
               constraints := w.constraints, slot := w.slot, lookback := w.lookback,
               props := some (parseWidgetProps w.props descriptor),
               descriptor := descriptor } := by
  induction ws generalizing acc with
  | nil => exact absurd hw (List.not_mem_nil w)
  | cons r rest ih =>
    rw [List.map_cons, List.nodup_cons] at hnd
    rcases List.mem_cons.mp hw with hw1 | hw1
    · subst hw1
      rw [List.foldl_cons]
      have hstep : parseWidgetStep acc w = recordSet acc w.id
          { id := w.id, type := w.type, layout := w.layout,
            constraints := w.constraints, slot := w.slot, lookback := w.lookback,
            props := some (parseWidgetProps w.props descriptor),
            descriptor := descriptor } := by
        simp [parseWidgetStep, hreg]
      rw [hstep, foldl_parseWidgetStep_preserves rest _ w.id
        (fun r2 hr2 heq => hnd.1 (heq ▸ List.mem_map.mpr ⟨r2, hr2, rfl⟩)),
        recordGet_recordSet_same]
    · rw [List.foldl_cons]
      have hrid : ¬ r.id = w.id := by
        intro heq
        exact hnd.1 (heq ▸ List.mem_map.mpr ⟨w, hw1, rfl⟩)
      refine ih _ hw1 hnd.2 ?_
      intro p hp
      cases hreg2 : WidgetRegistry r.type with
      | none =>
        have hpacc : p ∈ acc := by
          have : parseWidgetStep acc r = acc := by simp [parseWidgetStep, hreg2]
          rw [this] at hp
          exact hp
        exact hacc p hpacc
      | some d2 =>
        have hstep : parseWidgetStep acc r = recordSet acc r.id
            { id := r.id, type := r.type, layout := r.layout,
              constraints := r.constraints, slot := r.slot, lookback := r.lookback,
              props := some (parseWidgetProps r.props d2), descriptor := d2 } := by
          simp [parseWidgetStep, hreg2]
        rw [hstep] at hp
        rcases mem_recordSet hp with hpm | hpm
        · exact hacc p hpm
        · rw [hpm]
          exact hrid

/-! ## Claims -/

/-- C1 (amended): for every state reachable through the public mutation
operations using only registry widgets, and in which every widget's stored
props value survives re-validation against its descriptor's schema (parsing
back to a deeply-equal value), `mergeState` after `persistState` yields a
state with identical dashboard ids, identical widget sets per dashboard
compared by id/type/layout/slot/lookback/props, and identical viewports.
The restriction on props is forced by `updateWidgetProps`, which accepts an
arbitrary value: a stored value the schema rejects comes back as the
descriptor's default. -/
theorem c1_round_trip_amended (s : WorkspaceStore)
    (hreach : ReachableRegistry s) (hprops : propsReparse s = true) :
    storeObsEq s (roundTripState s) = true :=
  storeObsEq_roundTrip_of_WF s (reachableVia_storeWF (fun _ hd => hd) hreach) hprops

theorem c1_round_trip_witness :
    ReachableRegistry sliderFmsAddedState ∧ propsReparse sliderFmsAddedState = true ∧
    storeObsEq sliderFmsAddedState (roundTripState sliderFmsAddedState) = true :=
  ⟨reachableReg_sliderFmsAdded, by decide,
    c1_round_trip_amended sliderFmsAddedState reachableReg_sliderFmsAdded (by decide)⟩

/-- C1 (counterexample to the claim as stated): the state reached by adding a
registry slider widget and then calling `updateWidgetProps` with a value the
slider schema rejects is reachable using only registry widget types, yet
`toRuntime(toPersisted(S))` differs from `S` on that widget's props (the
default value is substituted for the stored one). -/
theorem c1_claim_counterexample :
    ReachableRegistry sliderBadPropsState ∧
    storeObsEq sliderBadPropsState (roundTripState sliderBadPropsState) = false :=
  ⟨reachableReg_sliderBadProps, by decide⟩

/-- C2: importing a document whose `version` property is not the literal `1`
returns a structured validation error and leaves the store unchanged, no
matter what else the document contains. -/
theorem c2_version_gate (document : Json) (s : WorkspaceStore)
    (h : documentVersionField document ≠ some (.num VERSION)) :
    (workspaceImport s document).1 = s ∧
      (workspaceImport s document).2.isSome = true := by
  cases hdec : decodeWorkspaceDocument document with
  | ok r => exact absurd (decodeWorkspaceDocument_ok_version hdec) h
  | error e =>
    constructor
    · simp [workspaceImport, hdec]
    · simp [workspaceImport, hdec]

theorem c2_witness :
    documentVersionField wrongVersionDoc ≠ some (.num VERSION) ∧
    ((workspaceImport defaultState wrongVersionDoc).1 = defaultState ∧
      (workspaceImport defaultState wrongVersionDoc).2.isSome = true) :=
  ⟨by decide, c2_version_gate wrongVersionDoc defaultState (by decide)⟩

/-- C3 (amended): conversion (`mergeState`, used by import and rehydration)
drops every widget whose type has no registry descriptor — no widget of
unregistered type ever appears in the resulting runtime state — and a
document that passes schema validation is imported without any error being
returned, drops included.  The amendment: a widget type outside the schema
enum (`WidgetTypeValues`) makes `import` fail validation with an error
instead, as the counterexample shows; the silent drop is unconditional only
on the schema-free rehydration path. -/
theorem c3_unknown_drop_amended :
    (∀ (record : Option WorkspaceDocument) (s : WorkspaceStore),
      ((allDashboards (mergeState record s)).all (fun d =>
        d.widgets.all (fun p => (WidgetRegistry p.2.type).isSome))) = true) ∧
    (∀ (s : WorkspaceStore) (document : Json) (result : WorkspaceDocument),
      decodeWorkspaceDocument document = .ok result →
      workspaceImport s document = (mergeState (some result) s, none)) := by
  constructor
  · intro record s
    rw [List.all_eq_true]
    intro d hd
    rw [List.all_eq_true]
    intro p hp
    obtain ⟨-, hreg⟩ := ((storeWF_mergeState record s).2.2 d hd).2 p hp
    rw [hreg]
    rfl
  · intro s document result hdec
    simp [workspaceImport, hdec]

theorem c3_witness :
    decodeWorkspaceDocument (oneWidgetDoc "robot3d") = .ok robot3dDecodedDoc ∧
    workspaceImport defaultState (oneWidgetDoc "robot3d")
      = (mergeState (some robot3dDecodedDoc) defaultState, none) ∧
    ((allDashboards (mergeState (some robot3dDecodedDoc) defaultState)).all (fun d =>
      d.widgets.all (fun p => (WidgetRegistry p.2.type).isSome))) = true :=
  ⟨rfl,
    (c3_unknown_drop_amended).2 defaultState (oneWidgetDoc "robot3d") robot3dDecodedDoc rfl,
    (c3_unknown_drop_amended).1 (some robot3dDecodedDoc) defaultState⟩

/-- C3 (counterexample to the claim as stated): a document holding a widget
whose type `"gone.widget"` has no registry descriptor is rejected by the
schema gate, so importing it DOES report an error, contradicting the
unconditional no-error part of the claim. -/
theorem c3_claim_counterexample :
    WidgetRegistry "gone.widget" = none ∧
    (workspaceImport defaultState (oneWidgetDoc "gone.widget")).2.isSome = true := by
  constructor
  · rfl
  · decide

/-- C4: for a widget record whose registered descriptor carries a props
schema, conversion substitutes the descriptor's `defaultValue` whenever the
stored props value fails the schema, uses the parsed value when it succeeds,
and the widget itself is kept (surfacing no error): its runtime entry under
its id carries `parseWidgetProps` of the stored value. -/
theorem c4_default_substitution (v : Option Json) (descriptor : WidgetDescriptor)
    (ps : WidgetPropsSpec) (hps : descriptor.props = some ps) :
    (ps.schema v = none → parseWidgetProps v descriptor = ps.defaultValue) ∧
    (∀ parsed, ps.schema v = some parsed → parseWidgetProps v descriptor = parsed) ∧
    (∀ (rec : DashboardRecord) (ty : DashboardType) (idx : Option Int)
        (w : WidgetRecord),
      (rec.widgets.map WidgetRecord.id).Nodup → w ∈ rec.widgets → w.props = v →
      WidgetRegistry w.type = some descriptor →
      recordGet (parseDashboard (some rec) ty idx).widgets w.id
        = some { id := w.id, type := w.type, layout := w.layout,
                 constraints := w.constraints, slot := w.slot, lookback := w.lookback,
                 props := some (parseWidgetProps v descriptor),
                 descriptor := descriptor }) := by
  refine ⟨?_, ?_, ?_⟩
  · intro hfail
    simp [parseWidgetProps, hps, hfail]
  · intro parsed hok
    simp [parseWidgetProps, hps, hok]
  · intro rec ty idx w hnd hmem hpv hreg
    subst hpv
    exact foldl_parseWidgetStep_get rec.widgets [] w descriptor hmem hnd hreg
      (fun p hp => absurd hp (List.not_mem_nil p))

theorem c4_witness :
    WidgetSliderDescriptor.props
      = some { schema := sliderPropsSchema, defaultValue := sliderDefaultProps } ∧
    sliderPropsSchema (some (.str "boom")) = none ∧
    parseWidgetProps (some (.str "boom")) WidgetSliderDescriptor = sliderDefaultProps ∧
    recordGet (parseDashboard (some badPropsDashRecord) .teleop none).widgets "wx"
      = some { id := "wx", type := "slider", layout := scenarioLayout,
               constraints := none, slot := none, lookback := none,
               props := some (parseWidgetProps (some (.str "boom")) WidgetSliderDescriptor),
               descriptor := WidgetSliderDescriptor } :=
  ⟨rfl, rfl,
    (c4_default_substitution (some (.str "boom")) WidgetSliderDescriptor
      { schema := sliderPropsSchema, defaultValue := sliderDefaultProps } rfl).1 rfl,
    (c4_default_substitution (some (.str "boom")) WidgetSliderDescriptor
      { schema := sliderPropsSchema, defaultValue := sliderDefaultProps } rfl).2.2
      badPropsDashRecord .teleop none badPropsWidgetRecord (by decide)
      (List.mem_singleton.mpr rfl) rfl WidgetRegistry_slider⟩

/-- C5 (amended): `getSlots` derives the deduplicated set of bound slots
(`{nt:/A, nt:/B}` in the three-bound/one-unbound scenario), but the stored
`slots` cache is written only by `toggleDesignMode` (null on entering design
mode, the recomputed set on leaving it) and by `mergeState`;
`updateWidgetSlot` changes a widget's binding without touching the cache, so
the cache is not an invariant of every reachable state. -/
theorem c5_slot_cache_amended :
    (∀ (s : WorkspaceStore) (widgetId : String) (channelId dashboardId : Option String),
      (updateWidgetSlot s widgetId channelId dashboardId).slots = s.slots) ∧
    (∀ s : WorkspaceStore, (toggleDesignMode s).slots =
      (if s.designMode then some (getSlots s.dashboards) else none)) ∧
    getSlots slotScenarioState.dashboards = ["nt:/A", "nt:/B"] ∧
    (toggleDesignMode slotScenarioState).designMode = true ∧
    (toggleDesignMode slotScenarioState).slots = none ∧
    (toggleDesignMode (toggleDesignMode slotScenarioState)).slots
      = some ["nt:/A", "nt:/B"] := by
  refine ⟨?_, ?_, by decide, rfl, rfl, by decide⟩
  · intro s widgetId channelId dashboardId
    exact updateDashboard_slots s dashboardId _
  · intro s
    cases hd : s.designMode <;> simp [toggleDesignMode, hd]

/-- C5 (counterexample to the claim as stated): the scenario state with
widgets bound to `nt:/A`, `nt:/A`, `nt:/B` is reachable through the public
operations outside design mode, yet its `slots` cache is still `null` —
not the derived set `{nt:/A, nt:/B}` — because `updateWidgetSlot` never
recomputes the cache. -/
theorem c5_claim_counterexample :
    Reachable slotScenarioState ∧
    slotScenarioState.designMode = false ∧
    getSlots slotScenarioState.dashboards = ["nt:/A", "nt:/B"] ∧
    slotScenarioState.slots = none ∧
    slotScenarioState.slots ≠ some (getSlots slotScenarioState.dashboards) :=
  ⟨reachable_slotScenario, rfl, by decide, rfl, by decide⟩

/-- C6 (amended): `enterDesignMode` and `exitDesignMode` only set and clear
the flag, leaving the `slots` cache untouched; only `toggleDesignMode` flips
the flag and additionally clears the cache to null on entering design mode or
recomputes it from all dashboards on leaving. -/
theorem c6_design_mode_amended (s : WorkspaceStore) :
    (enterDesignMode s).designMode = true ∧
    (enterDesignMode s).slots = s.slots ∧
    (exitDesignMode s).designMode = false ∧
    (exitDesignMode s).slots = s.slots ∧
    (toggleDesignMode s).designMode = !s.designMode ∧
    (toggleDesignMode s).slots =
      (if s.designMode then some (getSlots s.dashboards) else none) := by
  refine ⟨rfl, rfl, rfl, rfl, rfl, ?_⟩
  cases hd : s.designMode <;> simp [toggleDesignMode, hd]

/-- C6 (counterexample to the claim as stated): exiting design mode through
`exitDesignMode` does NOT recompute the bound-slots cache (it stays `null`
although `nt:/A` and `nt:/B` are bound), and entering design mode through
`enterDesignMode` does NOT clear the cache to null (a previously computed
set survives). -/
theorem c6_claim_counterexample :
    (exitDesignMode (enterDesignMode slotScenarioState)).designMode = false ∧
    getSlots (exitDesignMode (enterDesignMode slotScenarioState)).dashboards
      = ["nt:/A", "nt:/B"] ∧
    (exitDesignMode (enterDesignMode slotScenarioState)).slots = none ∧
    (enterDesignMode (toggleDesignMode (toggleDesignMode slotScenarioState))).designMode
      = true ∧
    (enterDesignMode (toggleDesignMode (toggleDesignMode slotScenarioState))).slots
      = some ["nt:/A", "nt:/B"] :=
  ⟨rfl, by decide, rfl, rfl, by decide⟩

/-- C7: in every state reachable through the public operations the custom
dashboard at 0-based position `i` is named `Dashboard i+1`, with no gaps:
every operation that changes the custom list (add, remove, move, import)
renumbers positionally. -/
theorem c7_names_invariant (s : WorkspaceStore) (h : Reachable s) :
    namedFrom 0 s.dashboards.custom = true :=
  reachableVia_named h

theorem c7_witness :
    Reachable twoDashAfterRemoval ∧
    twoDashAfterRemoval.dashboards.custom.map (fun d => d.name)
      = ["Dashboard 1", "Dashboard 2"] ∧
    namedFrom 0 twoDashAfterRemoval.dashboards.custom = true :=
  ⟨reachable_twoDash, by decide, c7_names_invariant _ reachable_twoDash⟩

/-- C8 (amended): `removeDashboard` with an id that does not occur in the
custom list leaves the dashboards (and every name) unchanged, but it still
unconditionally re-selects `teleop`: the trailing `dashboardId = "teleop"`
assignment runs whether or not the id was found, so the operation is not a
complete no-op. -/
theorem c8_remove_missing_amended (s : WorkspaceStore) (id : String)
    (h : ∀ d ∈ s.dashboards.custom, ¬ d.id = id) :
    removeDashboard s id = { s with dashboardId := some "teleop" } := by
  have hidx : findIndexOpt (fun d => d.id = id) s.dashboards.custom = none :=
    findIndexOpt_eq_none (fun x hx => by simpa using h x hx)
  simp [removeDashboard, hidx]

/-- C8 (counterexample to the claim as stated): removing a nonexistent id
from the default state (where nothing is selected) changes the store — the
selected dashboard becomes `teleop`. -/
theorem c8_claim_counterexample :
    (∀ d ∈ defaultState.dashboards.custom, ¬ d.id = "ghost") ∧
    removeDashboard defaultState "ghost" ≠ defaultState := by
  refine ⟨fun d hd => absurd hd (List.not_mem_nil d), fun h => ?_⟩
  exact absurd (congrArg WorkspaceStore.dashboardId h) (by decide)

theorem c8_witness :
    (∀ d ∈ (selectDashboard defaultState "auto").dashboards.custom, ¬ d.id = "ghost") ∧
    removeDashboard (selectDashboard defaultState "auto") "ghost"
      = { selectDashboard defaultState "auto" with dashboardId := some "teleop" } :=
  ⟨fun d hd => absurd hd (List.not_mem_nil d),
    c8_remove_missing_amended (selectDashboard defaultState "auto") "ghost"
      (fun d hd => absurd hd (List.not_mem_nil d))⟩

/-- C9: the code evaluated at the failing input — with custom dashboards
`d1`, `d2`, `d3` and the SOURCE id `"ghost"` missing, `moveDashboard` is not
a no-op: `findIndex` returns `-1`, `arrayMove`'s `splice(-1, 1)` removes the
LAST dashboard and re-inserts it at the target position, and the list is
renumbered to `d3, d1, d2`.  On an empty custom list with both ids missing
the renaming loop reads an `undefined` entry and throws (modelled `none`),
so the call is not even non-fatal. -/
theorem c9_code_behavior :
    (∀ d ∈ threeDashState.dashboards.custom, ¬ d.id = "ghost") ∧
    (moveDashboard threeDashState "ghost" "d1").map
      (fun s => s.dashboards.custom.map (fun d => d.id)) = some ["d3", "d1", "d2"] ∧
    moveDashboard threeDashState "ghost" "d1" ≠ some threeDashState ∧
    moveDashboard defaultState "ghost" "ghost2" = none := by
  refine ⟨by decide, by decide, fun h => ?_, rfl⟩
  exact absurd (congrArg (Option.map (fun s => s.dashboards.custom.map (fun d => d.id))) h)
    (by decide)

/-- C10: whenever `mergeState` merges a document without a `dashboardId`
field (as on import of such a document or rehydration), the selected
dashboard becomes `teleop` regardless of the previous selection. -/
theorem c10_merge_selects_teleop (record : WorkspaceDocument) (s : WorkspaceStore)
    (h : record.dashboardId = none) :
    (mergeState (some record) s).dashboardId = some "teleop" := by
  show some (((some record).bind (fun r => r.dashboardId)).getD "teleop") = some "teleop"
  rw [Option.some_bind, h]
  rfl

theorem c10_witness :
    ({ version := VERSION, dashboardId := none, dashboards := none }
      : WorkspaceDocument).dashboardId = none ∧
    (mergeState (some { version := VERSION, dashboardId := none, dashboards := none })
      (selectDashboard defaultState "auto")).dashboardId = some "teleop" :=
  ⟨rfl, c10_merge_selects_teleop _ (selectDashboard defaultState "auto") rfl⟩
